import Mathlib

/-!
# fixlang-subprocess: `lib.c`

A shallow embedding of the two C functions of `src/lib.c`,

* `fixsubprocess_fork_execvp` (the spawner), and
* `fixsubprocess_wait_subprocess` (the waiter),

together with the properties of them that the specification states.

Modelling conventions.

* The operating system is an oracle: every system call appends an entry to a
  trace and takes its reply from a script (`WaitEnv`, `SpawnEnv`).  A script
  indexed by the call number is as general as an oracle depending on the
  arguments, because the code is deterministic.
* `int wait_status` is kept as its bit pattern (a `Nat`), on which the macros
  of `<sys/wait.h>` act by `&&&` and `>>>`.
* `uint8_t` fields are `Nat`s; a cast `(uint8_t)e` is `e % 256`.
* `double` values are IEEE 754 binary64 values (`Double`): an operation computes
  the exact result and rounds it to the nearest value, ties to even; infinities
  and NaN are kept.
* The polling loop `while (1)` takes fuel; `none` means the fuel ran out.
* `malloc` and `fdopen` are taken to succeed, and `waitpid`, `pipe`, `fork`,
  `dup2`, `close` and `execvp` to behave as POSIX describes them.
-/

namespace FixSubprocess

/-! ## Platform definitions used by the waiter -/

/-- Modelled from the spec: the constant `WNOHANG` of `<sys/wait.h>` is not
under `src/`; it is the option of the non-blocking wait poll (value on Linux). -/
def WNOHANG : Int := 1

/-- Modelled from the spec: the constant `CLOCK_MONOTONIC` of `<time.h>` is not
under `src/`; it names the monotonic clock (value on Linux). -/
def CLOCK_MONOTONIC : Int := 1

/-- Modelled from the spec: the macro `WTERMSIG` of `<sys/wait.h>` is not under
`src/`; `WTERMSIG(status) = status & 0x7f`. -/
def WTERMSIG (status : Nat) : Nat := status &&& 0x7f

/-- Modelled from the spec: the macro `WEXITSTATUS` of `<sys/wait.h>` is not
under `src/`; `WEXITSTATUS(status) = (status & 0xff00) >> 8`, the low 8 bits of
the exit code. -/
def WEXITSTATUS (status : Nat) : Nat := (status &&& 0xff00) >>> 8

/-- Modelled from the spec: the macro `WIFEXITED` of `<sys/wait.h>` is not under
`src/`; it holds when the low 7 bits of the status are 0. -/
def WIFEXITED (status : Nat) : Bool := WTERMSIG status == 0

/-- Modelled from the spec: the macro `WIFSIGNALED` of `<sys/wait.h>` is not
under `src/`; in glibc it is
`((signed char) ((status & 0x7f) + 1) >> 1) > 0`.  The value
`(status & 0x7f) + 1` lies in `1..128`; as a `signed char` 128 becomes -128 and
the arithmetic shift keeps the sign. -/
def WIFSIGNALED (status : Nat) : Bool :=
  let v : Int := ((status &&& 0x7f) + 1 : Nat)
  let sc : Int := if v ≥ 128 then v - 256 else v
  decide (sc / 2 > 0)

/-- Modelled from the spec: the macro `WSTOPSIG` of `<sys/wait.h>` is not under
`src/` and the specification does not define it; in glibc
`WSTOPSIG(status) = WEXITSTATUS(status)`, bits 8 to 15 of the status. -/
def WSTOPSIG (status : Nat) : Nat := WEXITSTATUS status

/-- Modelled from the spec: the type `pid_t` of `<sys/types.h>` is not under
`src/`; it is a 32-bit signed integer, and the cast `(pid_t)pid` of an
`int64_t` wraps modulo `2^32`. -/
def pid_t_cast (pid : Int) : Int := (pid + 2 ^ 31) % 2 ^ 32 - 2 ^ 31

/-- The cast `(uint8_t)e`. -/
def uint8_cast (e : Nat) : Nat := e % 256

/-! ## Arithmetic of `double` (IEEE 754 binary64) -/

/-- A value of the type `double`: the finite value `(-1)^neg * m * 2^e`, an
infinity, or a NaN.  The results of the operations below have `m < 2^53` (or
`m = 2^53`, when rounding carried) and `-1074 ≤ e ≤ 971`. -/
inductive Double where
  | finite (neg : Bool) (m : Nat) (e : Int)
  | inf (neg : Bool)
  | nan
  deriving DecidableEq, Repr

/-- The number of binary digits of `n`, computed with `fuel` halvings. -/
def bit_length_aux : Nat → Nat → Nat
  | 0, _ => 0
  | fuel + 1, n => if n = 0 then 0 else bit_length_aux fuel (n / 2) + 1

/-- The number of binary digits of `n`: `2^(bit_length n - 1) ≤ n < 2^(bit_length n)`
for `n > 0`. -/
def bit_length (n : Nat) : Nat := bit_length_aux n n

/-- The exponent `L` with `2^L ≤ n / d < 2^(L + 1)`, for positive `n` and `d`.
The difference `a` of the bit lengths has `2^(a - 1) < n / d < 2^(a + 1)`. -/
def floor_log2 (n d : Nat) : Int :=
  let a : Int := (bit_length n : Int) - (bit_length d : Int)
  if d * 2 ^ a.toNat ≤ n * 2 ^ (-a).toNat then a else a - 1

/-- The integer nearest to `num / den`, the even one of the two when `num / den`
is half way between them. -/
def round_half_even (num den : Nat) : Nat :=
  let q := num / den
  let r := num % den
  if den < 2 * r ∨ (2 * r = den ∧ q % 2 = 1) then q + 1 else q

/-- The exponent of the binary64 value nearest to `n / d`, for positive `n` and
`d`: the quotient is rounded to a multiple of `2^e` that has at most 53 digits,
with `e ≥ -1074` (subnormal values). -/
def round_exponent (n d : Nat) : Int := max (floor_log2 n d - 52) (-1074)

/-- The number of units `2^e`, `e = round_exponent n d`, in the binary64 value
nearest to `n / d`, ties to even. -/
def round_mantissa (n d : Nat) : Nat :=
  round_half_even (n * 2 ^ (-round_exponent n d).toNat) (d * 2 ^ (round_exponent n d).toNat)

/-- The binary64 value nearest to `(-1)^neg * n / d` (`d > 0`), ties to even; a
result of `2^1024` or more is an infinity. -/
def Double.round (neg : Bool) (n d : Nat) : Double :=
  if n = 0 then Double.finite neg 0 0
  else if 971 < round_exponent n d ∨ (round_exponent n d = 971 ∧ 2 ^ 53 ≤ round_mantissa n d)
  then Double.inf neg
  else Double.finite neg (round_mantissa n d) (round_exponent n d)

/-- The integer `(-1)^neg * m * 2^(e - e0)`: the finite value `(-1)^neg * m * 2^e`
counted in units of `2^e0`, for `e0 ≤ e`. -/
def Double.signed (neg : Bool) (m : Nat) (e e0 : Int) : Int :=
  if neg then -((m * 2 ^ (e - e0).toNat : Nat) : Int)
  else ((m * 2 ^ (e - e0).toNat : Nat) : Int)

/-- The operation `-x`. -/
def Double.neg : Double → Double
  | Double.finite s m e => Double.finite (!s) m e
  | Double.inf s => Double.inf (!s)
  | Double.nan => Double.nan

/-- The operation `x + y`. -/
def Double.add : Double → Double → Double
  | Double.finite s1 m1 e1, Double.finite s2 m2 e2 =>
    let e0 := min e1 e2
    let t : Int := Double.signed s1 m1 e1 e0 + Double.signed s2 m2 e2 e0
    Double.round (decide (t < 0)) (t.natAbs * 2 ^ e0.toNat) (2 ^ (-e0).toNat)
  | Double.finite _ _ _, Double.inf s => Double.inf s
  | Double.inf s, Double.finite _ _ _ => Double.inf s
  | Double.inf s1, Double.inf s2 => if s1 = s2 then Double.inf s1 else Double.nan
  | _, _ => Double.nan

/-- The operation `x - y`. -/
def Double.sub (x y : Double) : Double := Double.add x (Double.neg y)

/-- The operation `x / y`. -/
def Double.div : Double → Double → Double
  | Double.finite s1 m1 e1, Double.finite s2 m2 e2 =>
    if m2 = 0 then
      if m1 = 0 then Double.nan else Double.inf (xor s1 s2)
    else
      Double.round (xor s1 s2) (m1 * 2 ^ (e1 - e2).toNat) (m2 * 2 ^ (e2 - e1).toNat)
  | Double.finite s1 _ _, Double.inf s2 => Double.finite (xor s1 s2) 0 0
  | Double.inf s1, Double.finite s2 _ _ => Double.inf (xor s1 s2)
  | _, _ => Double.nan

/-- The conversion `(double)i` of an integer. -/
def Double.of_int (i : Int) : Double := Double.round (decide (i < 0)) i.natAbs 1

/-- The comparison `x <= y`; it is false when an operand is a NaN. -/
def Double.le : Double → Double → Bool
  | Double.finite s1 m1 e1, Double.finite s2 m2 e2 =>
    decide (Double.signed s1 m1 e1 (min e1 e2) ≤ Double.signed s2 m2 e2 (min e1 e2))
  | Double.finite _ _ _, Double.inf s => !s
  | Double.inf s, Double.finite _ _ _ => s
  | Double.inf s1, Double.inf s2 => s1 || !s2
  | _, _ => false

/-- The comparison `x < y`; it is false when an operand is a NaN. -/
def Double.lt : Double → Double → Bool
  | Double.finite s1 m1 e1, Double.finite s2 m2 e2 =>
    decide (Double.signed s1 m1 e1 (min e1 e2) < Double.signed s2 m2 e2 (min e1 e2))
  | Double.finite _ _ _, Double.inf s => !s
  | Double.inf s, Double.finite _ _ _ => s
  | Double.inf s1, Double.inf s2 => s1 && !s2
  | _, _ => false

/-- The comparison `x >= y`. -/
def Double.ge (x y : Double) : Bool := Double.le y x

/-- The constant `0.0`. -/
def Double.zero : Double := Double.finite false 0 0

/-- The constant `1e9`. -/
def Double.billion : Double := Double.finite false 1000000000 0

/-! ## The waiter: data -/

/-- The struct `WaitResult` (six `uint8_t` fields). -/
structure WaitResult where
  is_timeout : Nat
  wait_failed : Nat
  exit_status : Nat
  exit_status_available : Nat
  stop_signal : Nat
  stop_signal_available : Nat
  deriving DecidableEq, Repr

/-- The struct `timespec`. -/
structure timespec where
  tv_sec : Int
  tv_nsec : Int
  deriving DecidableEq, Repr

/-- System calls made by the waiter, as they appear in the trace. -/
inductive WaitCall where
  | waitpid (pid : Int) (options : Int)
  | clock_gettime (clk_id : Int)
  deriving DecidableEq, Repr

/-- What one call of `waitpid` does: its return value, and the value it stores
through the status pointer (`none` when it stores nothing). -/
structure WaitpidReply where
  ret : Int
  status : Option Nat
  deriving DecidableEq, Repr

/-- The environment of one call of the waiter: the reply to the `n`-th call of
`waitpid` and the `n`-th reading of the clock (both counted from 0). -/
structure WaitEnv where
  waitpid : Nat → WaitpidReply
  clock : Nat → timespec

/-- The state of the waiter: the struct behind `out`, the local `wait_status`,
the trace of system calls and the number of calls of each kind made so far. -/
structure WaitState where
  out : WaitResult
  wait_status : Nat
  calls : List WaitCall
  nwait : Nat
  nclock : Nat
  deriving DecidableEq, Repr

/-! ## The waiter: code -/

/-- The call `waitpid(pid, &wait_status, options)`. -/
def sys_waitpid (env : WaitEnv) (pid options : Int) (s : WaitState) : Int × WaitState :=
  let r := env.waitpid s.nwait
  (r.ret,
   { s with
     wait_status := r.status.getD s.wait_status
     calls := s.calls ++ [WaitCall.waitpid pid options]
     nwait := s.nwait + 1 })

/-- The call `clock_gettime(CLOCK_MONOTONIC, &ts)`. -/
def sys_clock_gettime (env : WaitEnv) (s : WaitState) : timespec × WaitState :=
  (env.clock s.nclock,
   { s with
     calls := s.calls ++ [WaitCall.clock_gettime CLOCK_MONOTONIC]
     nclock := s.nclock + 1 })

/-- The expression `(double)ts.tv_sec + (double)ts.tv_nsec / 1e9`. -/
def to_double (ts : timespec) : Double :=
  Double.add (Double.of_int ts.tv_sec) (Double.div (Double.of_int ts.tv_nsec) Double.billion)

/-- The loop `while (1) { ... }` of lines 126-141.  It returns `wait_return` and
the state at the `break`. -/
def poll_loop (env : WaitEnv) (pid : Int) (timeout start_f : Double) :
    Nat → WaitState → Option (Int × WaitState)
  | 0, _ => none
  | fuel + 1, s =>
    let (wait_return, s1) := sys_waitpid env (pid_t_cast pid) WNOHANG s
    if wait_return ≠ 0 then
      some (wait_return, s1)
    else
      let (now, s2) := sys_clock_gettime env s1
      let now_f := to_double now
      if Double.ge (Double.sub now_f start_f) timeout then
        some (wait_return, { s2 with out := { s2.out with is_timeout := 1 } })
      else
        poll_loop env pid timeout start_f fuel s2

/-- Lines 143-159: the test of `wait_return` and the decoding of `wait_status`. -/
def decode (wait_return : Int) (s : WaitState) : WaitState :=
  if wait_return = -1 then
    { s with out := { s.out with wait_failed := 1 } }
  else if WIFEXITED s.wait_status then
    { s with out := { s.out with
        exit_status_available := 1
        exit_status := uint8_cast (WEXITSTATUS s.wait_status) } }
  else if WIFSIGNALED s.wait_status then
    { s with out := { s.out with
        stop_signal_available := 1
        stop_signal := uint8_cast (WSTOPSIG s.wait_status) } }
  else
    s

/-- The function `fixsubprocess_wait_subprocess(pid, timeout, out)`.
`out0` is what the struct behind `out` holds at the call and `wait_status0`
what the uninitialised local `wait_status` holds. -/
def fixsubprocess_wait_subprocess (env : WaitEnv) (fuel : Nat) (pid : Int)
    (timeout : Double)
    (out0 : WaitResult) (wait_status0 : Nat) : Option WaitState :=
  let s0 : WaitState :=
    { out := { out0 with
        is_timeout := 0
        exit_status_available := 0
        stop_signal_available := 0
        wait_failed := 0 }
      wait_status := wait_status0
      calls := []
      nwait := 0
      nclock := 0 }
  if Double.lt timeout Double.zero then
    let (wait_return, s1) := sys_waitpid env (pid_t_cast pid) 0 s0
    some (decode wait_return s1)
  else
    let (start, s1) := sys_clock_gettime env s0
    let start_f := to_double start
    match poll_loop env pid timeout start_f fuel s1 with
    | none => none
    | some (wait_return, s2) => some (decode wait_return s2)

/-! ## The waiter: vocabulary of the statements -/

/-- The content of `wait_status` after `n` calls of `waitpid`. -/
def status_after (env : WaitEnv) (wait_status0 : Nat) : Nat → Nat
  | 0 => wait_status0
  | n + 1 => (env.waitpid n).status.getD (status_after env wait_status0 n)

/-- The trace of `n` iterations of the loop that did not leave it. -/
def iter_calls (pid : Int) : Nat → List WaitCall
  | 0 => []
  | n + 1 => iter_calls pid n ++
      [WaitCall.waitpid (pid_t_cast pid) WNOHANG, WaitCall.clock_gettime CLOCK_MONOTONIC]

/-- The values the function stores in `out` before it waits (lines 113-116). -/
def out_init (out0 : WaitResult) : WaitResult :=
  { out0 with
    is_timeout := 0
    exit_status_available := 0
    stop_signal_available := 0
    wait_failed := 0 }

/-- The state at the head of the loop after `n` iterations that did not leave it. -/
def loop_state (env : WaitEnv) (pid : Int) (out0 : WaitResult) (wait_status0 : Nat)
    (n : Nat) : WaitState :=
  { out := out_init out0
    wait_status := status_after env wait_status0 n
    calls := WaitCall.clock_gettime CLOCK_MONOTONIC :: iter_calls pid n
    nwait := n
    nclock := n + 1 }

/-- The time of a clock reading in seconds, in binary64: the sum, rounded, of
`tv_sec`, rounded, and of the quotient, rounded, of `tv_nsec`, rounded, by
`10^9`. -/
def reading_seconds (ts : timespec) : Double :=
  Double.add (Double.round (decide (ts.tv_sec < 0)) ts.tv_sec.natAbs 1)
    (Double.div (Double.round (decide (ts.tv_nsec < 0)) ts.tv_nsec.natAbs 1)
      (Double.finite false 1000000000 0))

/-- The test `now_f - start_f >= timeout` at the clock reading that follows the
`m`-th poll (polls counted from 0; reading 0 is `start`): the binary64
difference of the two times is not below the timeout. -/
def elapsed_reached (env : WaitEnv) (timeout : Double) (m : Nat) : Prop :=
  Double.le timeout
    (Double.sub (reading_seconds (env.clock (m + 1))) (reading_seconds (env.clock 0))) = true

instance (env : WaitEnv) (timeout : Double) (m : Nat) :
    Decidable (elapsed_reached env timeout m) := by
  unfold elapsed_reached; infer_instance

/-- The first `n` polls all returned 0 and none was followed by a clock reading
that reached the timeout: the loop is still running when it polls for the
`n`-th time (counted from 0). -/
def Pending (env : WaitEnv) (timeout : Double) (n : Nat) : Prop :=
  ∀ m, m < n → (env.waitpid m).ret = 0 ∧ ¬ elapsed_reached env timeout m

instance (env : WaitEnv) (timeout : Double) (n : Nat) :
    Decidable (Pending env timeout n) := by
  unfold Pending; infer_instance

/-- The function makes an `n`-th call of `waitpid` (counted from 0): the single
blocking call when `timeout < 0.0`; otherwise a poll, made because the loop was
still running. -/
def Reaches (env : WaitEnv) (timeout : Double) (n : Nat) : Prop :=
  if Double.lt timeout Double.zero then n = 0 else Pending env timeout n

instance (env : WaitEnv) (timeout : Double) (n : Nat) :
    Decidable (Reaches env timeout n) := by
  unfold Reaches; infer_instance

/-- The `n`-th call of `waitpid` is the one whose return value the function
tests: the single blocking call, or the first poll that returns non-zero. -/
def Decisive (env : WaitEnv) (timeout : Double) (n : Nat) : Prop :=
  Reaches env timeout n ∧ (Double.lt timeout Double.zero = false → (env.waitpid n).ret ≠ 0)

/-- The trace of a call that tests the return value of the `n`-th call of
`waitpid`. -/
def decisive_calls (pid : Int) (timeout : Double) (n : Nat) : List WaitCall :=
  if Double.lt timeout Double.zero then
    [WaitCall.waitpid (pid_t_cast pid) 0]
  else
    WaitCall.clock_gettime CLOCK_MONOTONIC :: iter_calls pid n ++
      [WaitCall.waitpid (pid_t_cast pid) WNOHANG]

/-- The rational number that a finite value of `double` is (0 for the others). -/
def Double.val : Double → ℚ
  | Double.finite s m e => (if s then -(m : ℚ) else (m : ℚ)) * (2 : ℚ) ^ e
  | _ => 0

/-- A reading of a monotonic clock: a normalised `timespec` (`0 ≤ tv_nsec < 10^9`)
whose `tv_sec` is not negative and below `2^53`. -/
def sane_reading (ts : timespec) : Prop :=
  0 ≤ ts.tv_sec ∧ ts.tv_sec < 2 ^ 53 ∧ 0 ≤ ts.tv_nsec ∧ ts.tv_nsec < 1000000000

instance (ts : timespec) : Decidable (sane_reading ts) := by
  unfold sane_reading; infer_instance

/-- The order of two readings as times: the first is not later than the
second. -/
def timespec_le (a b : timespec) : Prop :=
  a.tv_sec < b.tv_sec ∨ (a.tv_sec = b.tv_sec ∧ a.tv_nsec ≤ b.tv_nsec)

instance (a b : timespec) : Decidable (timespec_le a b) := by
  unfold timespec_le; infer_instance

/-- A value of `double` that is neither an infinity nor a NaN. -/
def Double.is_finite : Double → Bool
  | Double.finite _ _ _ => true
  | _ => false

/-- The double `0.5`. -/
def half_second : Double := Double.finite false 1 (-1)

/-- The number of calls of `waitpid` in a trace. -/
def count_waitpid : List WaitCall → Nat
  | [] => 0
  | WaitCall.waitpid _ _ :: cs => count_waitpid cs + 1
  | WaitCall.clock_gettime _ :: cs => count_waitpid cs

/-- The number of flags of a result that are 1. -/
def flags_set (r : WaitResult) : Nat :=
  (if r.is_timeout = 1 then 1 else 0) + (if r.wait_failed = 1 then 1 else 0) +
  (if r.exit_status_available = 1 then 1 else 0) +
  (if r.stop_signal_available = 1 then 1 else 0)

/-- An environment for examples: the replies of `waitpid` are read off a list
(a poll beyond the list returns 0 and stores nothing), and the clock advances
by one second from each reading to the next. -/
def script_env (replies : List WaitpidReply) : WaitEnv :=
  { waitpid := fun n => replies.getD n { ret := 0, status := none }
    clock := fun n => { tv_sec := n, tv_nsec := 0 } }

/-- An environment for examples with a scripted clock: the replies of `waitpid`
and the readings of the clock are read off lists (a reading beyond the list is
`{0, 0}`). -/
def timed_env (replies : List WaitpidReply) (readings : List timespec) : WaitEnv :=
  { waitpid := fun n => replies.getD n { ret := 0, status := none }
    clock := fun n => readings.getD n { tv_sec := 0, tv_nsec := 0 } }

/-- A content of the struct behind `out` at the call, for examples. -/
def stale_out : WaitResult :=
  { is_timeout := 7
    wait_failed := 7
    exit_status := 7
    exit_status_available := 7
    stop_signal := 7
    stop_signal_available := 7 }

/-! ## The spawner: data -/

/-- What a descriptor refers to: an end of one of the three pipes created by the
function (`i` is the index into `pipes`: 0 in, 1 out, 2 err), or a file that the
caller had open. -/
inductive FileObj where
  | pipe_read (i : Nat)
  | pipe_write (i : Nat)
  | inherited (id : Nat)
  deriving DecidableEq, Repr

/-- The descriptor table of a process: `none` for a descriptor that is not
open. -/
abbrev FdTable := Int → Option FileObj

/-- The stream that `fdopen(fd, mode)` returns. -/
structure FILE where
  fd : Int
  mode : String
  deriving DecidableEq, Repr

/-- System and library calls made by the spawner, as they appear in the trace. -/
inductive SpawnCall where
  | pipe (i : Nat)
  | close (fd : Int)
  | fork
  | dup2 (oldfd newfd : Int)
  | execvp (file : String) (argv : List String)
  | fprintf_stderr (text : String)
  | exit (status : Int)
  | fdopen (fd : Int) (mode : String)
  | malloc (size : Nat)
  deriving DecidableEq, Repr

/-- The environment of one call of the spawner: the reply to `pipe(pipes[i])`
(`none` when it fails, else the read and the write descriptor it stores), the
return value of `fork` in the process that is followed, and whether `execvp`
replaces the image. -/
structure SpawnEnv where
  pipe : Nat → Option (Int × Int)
  fork : Int
  execvp_ok : Bool

/-- How the function ends in the process that is followed: it returns to its
caller, the image is replaced, or the process exits. -/
inductive Outcome where
  | returned
  | image_replaced
  | exited (status : Int)
  deriving DecidableEq, Repr

/-- The state of the spawner: the local array `pipes`, the descriptor table of
the process, the trace, and the three outputs. `out_error = none` is `NULL`. -/
structure SpawnState where
  pipes : Nat → Int × Int
  fds : FdTable
  calls : List SpawnCall
  out_error : Option String
  out_streams : Nat → Option FILE
  out_pid : Int

/-! ## The spawner: the descriptor table -/

/-- The effect of `close(fd)` on the table. -/
def fd_close (t : FdTable) (fd : Int) : FdTable :=
  fun k => if k = fd then none else t k

/-- The effect of `dup2(oldfd, newfd)` on the table, for a valid `newfd`: nothing
when `oldfd` is not open or equals `newfd`; otherwise `newfd` is made to refer
to what `oldfd` refers to. -/
def fd_dup2 (t : FdTable) (oldfd newfd : Int) : FdTable :=
  match t oldfd with
  | none => t
  | some f => if oldfd = newfd then t else fun k => if k = newfd then some f else t k

/-- The effect on the table of a successful `pipe(pipes[i])` that returns the
descriptors `r` and `w`. -/
def fd_pipe (t : FdTable) (i : Nat) (r w : Int) : FdTable :=
  fun k => if k = w then some (FileObj.pipe_write i)
    else if k = r then some (FileObj.pipe_read i) else t k

/-! ## The spawner: code -/

/-- The call `pipe(pipes[i])`: on failure it returns -1 and leaves `pipes[i]` as
it is. -/
def sys_pipe (env : SpawnEnv) (i : Nat) (s : SpawnState) : Int × SpawnState :=
  match env.pipe i with
  | none => (-1, { s with calls := s.calls ++ [SpawnCall.pipe i] })
  | some (r, w) =>
    (0, { s with
          pipes := fun k => if k = i then (r, w) else s.pipes k
          fds := fd_pipe s.fds i r w
          calls := s.calls ++ [SpawnCall.pipe i] })

/-- The call `close(fd)`. -/
def sys_close (fd : Int) (s : SpawnState) : SpawnState :=
  { s with fds := fd_close s.fds fd, calls := s.calls ++ [SpawnCall.close fd] }

/-- The call `dup2(oldfd, newfd)`. -/
def sys_dup2 (oldfd newfd : Int) (s : SpawnState) : SpawnState :=
  { s with fds := fd_dup2 s.fds oldfd newfd, calls := s.calls ++ [SpawnCall.dup2 oldfd newfd] }

/-- The call `fork()`. -/
def sys_fork (env : SpawnEnv) (s : SpawnState) : Int × SpawnState :=
  (env.fork, { s with calls := s.calls ++ [SpawnCall.fork] })

/-- The call `fdopen(fd, mode)`. -/
def sys_fdopen (fd : Int) (mode : String) (s : SpawnState) : FILE × SpawnState :=
  ({ fd := fd, mode := mode }, { s with calls := s.calls ++ [SpawnCall.fdopen fd mode] })

/-- The statements `*out_error = (char *)malloc(sizeof(char) * (strlen(msg) + 1));
strcpy(*out_error, msg);`. -/
def set_error (msg : String) (s : SpawnState) : SpawnState :=
  { s with calls := s.calls ++ [SpawnCall.malloc (msg.length + 1)], out_error := some msg }

/-- The body `close(pipes[j][0]); close(pipes[j][1]);` of the two closing loops. -/
def close_pair (s : SpawnState) (j : Nat) : SpawnState :=
  sys_close (s.pipes j).2 (sys_close (s.pipes j).1 s)

/-- The loop `for (int i = 0; i < 3; i++)` of lines 20-37, with `k` iterations
left.  `Except.error` carries the state at the `return` of line 35. -/
def pipe_loop (env : SpawnEnv) : Nat → Nat → SpawnState → Except SpawnState SpawnState
  | 0, _, s => Except.ok s
  | k + 1, i, s =>
    let (rc, s1) := sys_pipe env i s
    if rc ≠ 0 then
      let s2 := (List.range i).foldl close_pair s1
      Except.error (set_error "Failed to create pipe." s2)
    else
      pipe_loop env k (i + 1) s1

/-- The function `fixsubprocess_fork_execvp(program_path, argv, out_error,
out_streams, out_pid)`.  `pipes0`, `out_streams0` and `out_pid0` are what the
local array and the two output locations hold at the call, and `fds0` is the
descriptor table of the calling process. -/
def fixsubprocess_fork_execvp (env : SpawnEnv) (program_path : String)
    (argv : List String) (fds0 : FdTable) (pipes0 : Nat → Int × Int)
    (out_streams0 : Nat → Option FILE) (out_pid0 : Int) : SpawnState × Outcome :=
  let s0 : SpawnState :=
    { pipes := pipes0
      fds := fds0
      calls := []
      out_error := none
      out_streams := out_streams0
      out_pid := out_pid0 }
  match pipe_loop env 3 0 s0 with
  | Except.error s => (s, Outcome.returned)
  | Except.ok s1 =>
    let (pid, s2) := sys_fork env s1
    if pid = 0 then
      let s3 := sys_dup2 (s2.pipes 0).1 0 s2
      let s4 := sys_dup2 (s3.pipes 1).2 1 s3
      let s5 := sys_dup2 (s4.pipes 2).2 2 s4
      let s6 := (List.range 3).foldl close_pair s5
      let s7 := { s6 with calls := s6.calls ++ [SpawnCall.execvp program_path argv] }
      if env.execvp_ok then
        (s7, Outcome.image_replaced)
      else
        let s8 := { s7 with calls := s7.calls ++
          [SpawnCall.fprintf_stderr ("execvp(" ++ program_path ++ ", ...) failed.\n"),
           SpawnCall.exit 1] }
        (s8, Outcome.exited 1)
    else
      if pid < 0 then
        (set_error "Failed to create child process." s2, Outcome.returned)
      else
        let s3 := sys_close (s2.pipes 0).1 s2
        let s4 := sys_close (s3.pipes 1).2 s3
        let s5 := sys_close (s4.pipes 2).2 s4
        let (f0, s6) := sys_fdopen (s5.pipes 0).2 "w" s5
        let s7 := { s6 with out_streams := fun k => if k = 0 then some f0 else s6.out_streams k }
        let (f1, s8) := sys_fdopen (s7.pipes 1).1 "r" s7
        let s9 := { s8 with out_streams := fun k => if k = 1 then some f1 else s8.out_streams k }
        let (f2, s10) := sys_fdopen (s9.pipes 2).1 "r" s9
        let s11 := { s10 with
          out_streams := fun k => if k = 2 then some f2 else s10.out_streams k }
        ({ s11 with out_pid := pid }, Outcome.returned)

/-! ## The spawner: vocabulary of the statements -/

/-- The descriptors closed in a trace, in order. -/
def closed_fds : List SpawnCall → List Int
  | [] => []
  | SpawnCall.close fd :: cs => fd :: closed_fds cs
  | _ :: cs => closed_fds cs

/-- The descriptors wrapped by `fdopen` in a trace, in order. -/
def wrapped_fds : List SpawnCall → List Int
  | [] => []
  | SpawnCall.fdopen fd _ :: cs => fd :: wrapped_fds cs
  | _ :: cs => wrapped_fds cs

/-- The calls `close(pipes[j][0]); close(pipes[j][1]);` for `j = 0, ..., k - 1`,
where `p j` is the pair of descriptors of pipe `j`. -/
def close_calls (p : Nat → Int × Int) : Nat → List SpawnCall
  | 0 => []
  | k + 1 => close_calls p k ++ [SpawnCall.close (p k).1, SpawnCall.close (p k).2]

/-- The descriptors of the pipes `0, ..., k - 1`, in the order of `close_calls`. -/
def pipe_fds (p : Nat → Int × Int) : Nat → List Int
  | 0 => []
  | k + 1 => pipe_fds p k ++ [(p k).1, (p k).2]

/-- What a caller or an observer sees of one run of the spawner: how it ended,
the trace, and the three outputs (`out_streams[0]`, `[1]` and `[2]` apart). -/
structure SpawnReport where
  outcome : Outcome
  calls : List SpawnCall
  out_error : Option String
  out_pid : Int
  stream0 : Option FILE
  stream1 : Option FILE
  stream2 : Option FILE
  deriving DecidableEq, Repr

/-- The report of a run. -/
def report (r : SpawnState × Outcome) : SpawnReport :=
  { outcome := r.2
    calls := r.1.calls
    out_error := r.1.out_error
    out_pid := r.1.out_pid
    stream0 := r.1.out_streams 0
    stream1 := r.1.out_streams 1
    stream2 := r.1.out_streams 2 }

/-- An environment for examples: the three pipes get the given descriptors (a
pipe whose entry is missing or `none` fails). -/
def spawn_env (pipes : List (Option (Int × Int))) (fork : Int) (execvp_ok : Bool) :
    SpawnEnv :=
  { pipe := fun i => (pipes.getD i none)
    fork := fork
    execvp_ok := execvp_ok }

/-- The descriptor table of a process whose descriptors 0, 1 and 2 are open. -/
def std_fds : FdTable :=
  fun k => if k = 0 then some (FileObj.inherited 0)
    else if k = 1 then some (FileObj.inherited 1)
    else if k = 2 then some (FileObj.inherited 2) else none

/-- The descriptor table of a process that has closed its descriptor 0 and has
1 and 2 open. -/
def no_stdin_fds : FdTable :=
  fun k => if k = 1 then some (FileObj.inherited 1)
    else if k = 2 then some (FileObj.inherited 2) else none

/-- A content of the local array `pipes` at the call, for examples. -/
def stale_pipes : Nat → Int × Int := fun _ => (-7, -7)

/-- A content of `out_streams` at the call, for examples. -/
def stale_streams : Nat → Option FILE := fun _ => none

/-! ## Facts about the platform macros -/

theorem WTERMSIG_eq_mod (st : Nat) : WTERMSIG st = st % 128 := by
  unfold WTERMSIG
  exact Nat.and_pow_two_sub_one_eq_mod st 7

theorem WEXITSTATUS_eq_shift_and (st : Nat) : WEXITSTATUS st = (st >>> 8) &&& 0xff := by
  unfold WEXITSTATUS
  apply Nat.eq_of_testBit_eq
  intro i
  have h1 : (0xff00 : Nat) = (2 ^ 8 - 1) <<< 8 := by decide
  have h2 : (0xff : Nat) = 2 ^ 8 - 1 := by decide
  rw [h1, h2]
  simp only [Nat.testBit_shiftRight, Nat.testBit_and, Nat.testBit_shiftLeft,
    Nat.testBit_two_pow_sub_one]
  simp

theorem WEXITSTATUS_eq_div_mod (st : Nat) : WEXITSTATUS st = st / 256 % 256 := by
  rw [WEXITSTATUS_eq_shift_and, Nat.shiftRight_eq_div_pow]
  exact Nat.and_pow_two_sub_one_eq_mod (st / 2 ^ 8) 8

theorem WEXITSTATUS_lt (st : Nat) : WEXITSTATUS st < 256 := by
  rw [WEXITSTATUS_eq_div_mod]
  exact Nat.mod_lt _ (by norm_num)

theorem WIFEXITED_iff (st : Nat) : WIFEXITED st = true ↔ st % 128 = 0 := by
  unfold WIFEXITED
  rw [WTERMSIG_eq_mod]
  simp

theorem WIFSIGNALED_iff (st : Nat) :
    WIFSIGNALED st = true ↔ 1 ≤ st % 128 ∧ st % 128 ≤ 126 := by
  unfold WIFSIGNALED
  have h := Nat.and_pow_two_sub_one_eq_mod st 7
  simp only [Nat.reducePow, Nat.add_one_sub_one] at h
  simp only [h, decide_eq_true_eq]
  have hlt : st % 128 < 128 := Nat.mod_lt _ (by norm_num)
  split <;> omega

/-! ## Arithmetic of `double` -/

/-- The code computes the time of a reading as `reading_seconds` states it. -/
theorem to_double_eq_reading_seconds (ts : timespec) : to_double ts = reading_seconds ts :=
  rfl

/-- The test of the loop is the one `elapsed_reached` states. -/
theorem loop_test_iff (env : WaitEnv) (timeout : Double) (m : Nat) :
    Double.ge (Double.sub (to_double (env.clock (m + 1))) (to_double (env.clock 0))) timeout
      = true ↔ elapsed_reached env timeout m :=
  Iff.rfl

theorem Double.signed_nonpos_of_le_zero (s : Bool) (m : Nat) (e e0 e1 : Int)
    (h : Double.signed s m e e0 ≤ Double.signed false 0 0 e0) :
    Double.signed s m e e1 ≤ 0 := by
  cases s with
  | true => simp [Double.signed]
  | false =>
    have hm : m = 0 := by
      simp only [Double.signed, Bool.false_eq_true, if_false, Nat.zero_mul, Nat.cast_zero] at h
      have hpos : 0 < 2 ^ (e - e0).toNat := Nat.pow_pos (by norm_num)
      have h2 : m * 2 ^ (e - e0).toNat ≤ 0 := by exact_mod_cast h
      rcases Nat.eq_zero_or_pos m with h0 | h0
      · exact h0
      · have := Nat.mul_pos h0 hpos
        omega
    simp [Double.signed, hm]

/-- A value that is `<= 0.0` is `<=` every rounded non-negative quotient. -/
theorem Double.le_round_nonneg (t : Double) (n d : Nat)
    (ht : Double.le t Double.zero = true) :
    Double.le t (Double.round false n d) = true := by
  have hr : (∃ q e, Double.round false n d = Double.finite false q e) ∨
      Double.round false n d = Double.inf false := by
    unfold Double.round
    by_cases hn : n = 0
    · exact Or.inl ⟨0, 0, by simp [hn]⟩
    · simp only [hn, if_false]
      by_cases ho : 971 < round_exponent n d ∨
          (round_exponent n d = 971 ∧ 2 ^ 53 ≤ round_mantissa n d)
      · exact Or.inr (if_pos ho)
      · exact Or.inl ⟨_, _, if_neg ho⟩
  cases t with
  | nan => simp [Double.le, Double.zero] at ht
  | inf s =>
    have hs : s = true := by simpa [Double.le, Double.zero] using ht
    subst hs
    rcases hr with ⟨q, e, h⟩ | h <;> rw [h] <;> rfl
  | finite s m e =>
    rcases hr with ⟨q, e2, h⟩ | h
    · rw [h]
      have h1 : Double.signed s m e (min e e2) ≤ 0 := by
        apply Double.signed_nonpos_of_le_zero s m e (min e 0)
        simpa [Double.le, Double.zero] using ht
      have h2 : 0 ≤ Double.signed false q e2 (min e e2) := by
        simp [Double.signed]
      simp only [Double.le, decide_eq_true_eq]
      exact le_trans h1 h2
    · rw [h]; rfl

/-- The difference `x - y` of two finite values with `y <= x` is `>=` every value
that is `<= 0.0`. -/
theorem Double.le_sub_of_le (t x y : Double) (hx : Double.is_finite x = true)
    (hy : Double.is_finite y = true) (hxy : Double.le y x = true)
    (ht : Double.le t Double.zero = true) :
    Double.le t (Double.sub x y) = true := by
  cases x with
  | nan => simp [Double.is_finite] at hx
  | inf s => simp [Double.is_finite] at hx
  | finite s1 m1 e1 =>
    cases y with
    | nan => simp [Double.is_finite] at hy
    | inf s => simp [Double.is_finite] at hy
    | finite s2 m2 e2 =>
      have hle : Double.signed s2 m2 e2 (min e1 e2) ≤ Double.signed s1 m1 e1 (min e1 e2) := by
        have := hxy
        simp only [Double.le, decide_eq_true_eq] at this
        rwa [min_comm e2 e1] at this
      have hneg : Double.signed (!s2) m2 e2 (min e1 e2)
          = - Double.signed s2 m2 e2 (min e1 e2) := by
        cases s2 <;> simp [Double.signed]
      have hsum : ¬ (Double.signed s1 m1 e1 (min e1 e2)
          + Double.signed (!s2) m2 e2 (min e1 e2) < 0) := by
        rw [hneg]; omega
      simp only [Double.sub, Double.neg, Double.add, hsum, decide_False]
      exact Double.le_round_nonneg t _ _ ht

/-- A timeout that is `>= 0.0` is not `< 0.0`. -/
theorem Double.lt_zero_eq_false (t : Double) (h : Double.le Double.zero t = true) :
    Double.lt t Double.zero = false := by
  cases t with
  | nan => simp [Double.le, Double.zero] at h
  | inf s =>
    have hs : s = false := by simpa [Double.le, Double.zero] using h
    subst hs; rfl
  | finite s m e =>
    simp only [Double.le, Double.zero, decide_eq_true_eq] at h
    simp only [Double.lt, Double.zero, decide_eq_false_iff_not, not_lt]
    rwa [min_comm e 0]

/-! ## Rounding to binary64 is monotone -/

theorem bit_length_aux_zero (fuel : Nat) : bit_length_aux fuel 0 = 0 := by
  cases fuel <;> simp [bit_length_aux]

theorem bit_length_aux_spec (fuel : Nat) : ∀ n, n ≤ fuel → 0 < n →
    2 ^ bit_length_aux fuel n ≤ 2 * n ∧ n < 2 ^ bit_length_aux fuel n := by
  induction fuel with
  | zero => intro n h1 h2; omega
  | succ f ih =>
    intro n h1 h2
    have hn : n ≠ 0 := by omega
    simp only [bit_length_aux, hn, if_false]
    by_cases h : n / 2 = 0
    · have h1' : n = 1 := by omega
      subst h1'
      simp [bit_length_aux_zero]
    · have hle : n / 2 ≤ f := by omega
      have hpos : 0 < n / 2 := by omega
      obtain ⟨ha, hb⟩ := ih (n / 2) hle hpos
      rw [pow_succ]
      constructor <;> omega

theorem bit_length_spec (n : Nat) (hn : 0 < n) :
    2 ^ bit_length n ≤ 2 * n ∧ n < 2 ^ bit_length n :=
  bit_length_aux_spec n n (le_refl n) hn

theorem two_zpow_split (k : Int) :
    (2 : ℚ) ^ k = (2 ^ k.toNat : Nat) / (2 ^ (-k).toNat : Nat) := by
  rcases le_total 0 k with h | h
  · have h2 : (-k).toNat = 0 := by omega
    rw [h2]
    simp only [pow_zero, Nat.cast_one, div_one, Nat.cast_pow, Nat.cast_ofNat]
    rw [← zpow_natCast, Int.toNat_of_nonneg h]
  · have h2 : k.toNat = 0 := by omega
    rw [h2]
    simp only [pow_zero, Nat.cast_one, Nat.cast_pow, Nat.cast_ofNat, one_div]
    rw [← zpow_natCast, Int.toNat_of_nonneg (by omega : 0 ≤ -k), zpow_neg, inv_inv]

/-- The exponent found by `floor_log2` brackets the quotient. -/
theorem floor_log2_spec (n d : Nat) (hn : 0 < n) (hd : 0 < d) :
    (2 : ℚ) ^ floor_log2 n d ≤ (n : ℚ) / d ∧ (n : ℚ) / d < (2 : ℚ) ^ (floor_log2 n d + 1) := by
  obtain ⟨hn1, hn2⟩ := bit_length_spec n hn
  obtain ⟨hd1, hd2⟩ := bit_length_spec d hd
  have hdq : (0 : ℚ) < d := by exact_mod_cast hd
  have hnq : (0 : ℚ) < n := by exact_mod_cast hn
  have e1 : ((2 : ℚ) ^ (bit_length n : Int)) ≤ 2 * n := by
    rw [zpow_natCast]; exact_mod_cast hn1
  have e2 : (n : ℚ) < (2 : ℚ) ^ (bit_length n : Int) := by
    rw [zpow_natCast]; exact_mod_cast hn2
  have e3 : ((2 : ℚ) ^ (bit_length d : Int)) ≤ 2 * d := by
    rw [zpow_natCast]; exact_mod_cast hd1
  have e4 : (d : ℚ) < (2 : ℚ) ^ (bit_length d : Int) := by
    rw [zpow_natCast]; exact_mod_cast hd2
  have hsub : ∀ k : Int, (2 : ℚ) ^ ((bit_length n : Int) - (bit_length d : Int) + k)
      = (2 : ℚ) ^ (bit_length n : Int) / (2 : ℚ) ^ (bit_length d : Int) * (2 : ℚ) ^ k := by
    intro k
    rw [zpow_add₀ (by norm_num), zpow_sub₀ (by norm_num)]
  have hbd : (0 : ℚ) < (2 : ℚ) ^ (bit_length d : Int) := zpow_pos (by norm_num) _
  have hbn : (0 : ℚ) < (2 : ℚ) ^ (bit_length n : Int) := zpow_pos (by norm_num) _
  unfold floor_log2
  simp only
  split
  · rename_i htest
    constructor
    · rw [two_zpow_split, le_div_iff₀ hdq, div_mul_eq_mul_div, div_le_iff₀ (by positivity)]
      have : ((d * 2 ^ ((bit_length n : Int) - (bit_length d : Int)).toNat : Nat) : ℚ)
          ≤ ((n * 2 ^ (-((bit_length n : Int) - (bit_length d : Int))).toNat : Nat) : ℚ) := by
        exact_mod_cast htest
      push_cast at this ⊢
      linarith
    · rw [hsub 1, div_lt_iff₀ hdq, zpow_one, div_mul_eq_mul_div, div_mul_eq_mul_div,
        lt_div_iff₀ hbd]
      nlinarith
  · rename_i htest
    constructor
    · have : (bit_length n : Int) - (bit_length d : Int) - 1
          = (bit_length n : Int) - (bit_length d : Int) + (-1) := by ring
      rw [this, hsub (-1), le_div_iff₀ hdq, zpow_neg, zpow_one, div_mul_eq_mul_div,
        div_mul_eq_mul_div, div_le_iff₀ hbd]
      nlinarith
    · have : (bit_length n : Int) - (bit_length d : Int) - 1 + 1
          = (bit_length n : Int) - (bit_length d : Int) := by ring
      rw [this, two_zpow_split, div_lt_iff₀ hdq, div_mul_eq_mul_div, lt_div_iff₀ (by positivity)]
      have h' : ((n * 2 ^ (-((bit_length n : Int) - (bit_length d : Int))).toNat : Nat) : ℚ)
          < ((d * 2 ^ ((bit_length n : Int) - (bit_length d : Int)).toNat : Nat) : ℚ) := by
        exact_mod_cast (not_le.mp htest)
      push_cast at h' ⊢
      linarith


theorem round_half_even_ge (num den : Nat) : num / den ≤ round_half_even num den := by
  unfold round_half_even
  simp only
  split <;> omega

theorem round_half_even_le (num den : Nat) : round_half_even num den ≤ num / den + 1 := by
  unfold round_half_even
  simp only
  split <;> omega

theorem round_half_even_small (num den : Nat) (h : 2 * num < den) :
    round_half_even num den = 0 := by
  have hq : num / den = 0 := Nat.div_eq_of_lt (by omega)
  have hr : num % den = num := Nat.mod_eq_of_lt (by omega)
  unfold round_half_even
  simp only [hq, hr]
  rw [if_neg]
  omega

theorem round_half_even_exact (num den : Nat) (hden : 0 < den) (h : num % den = 0) :
    round_half_even num den = num / den := by
  unfold round_half_even
  simp only [h]
  rw [if_neg]
  omega

/-- Rounding to the nearest integer, ties to even, is monotone in the quotient. -/
theorem round_half_even_mono (num1 den1 num2 den2 : Nat) (h1 : 0 < den1) (h2 : 0 < den2)
    (h : num1 * den2 ≤ num2 * den1) :
    round_half_even num1 den1 ≤ round_half_even num2 den2 := by
  have a1 := Nat.div_add_mod num1 den1
  have a2 := Nat.div_add_mod num2 den2
  have r1 := Nat.mod_lt num1 h1
  have r2 := Nat.mod_lt num2 h2
  generalize hq1 : num1 / den1 = q1 at a1
  generalize hr1 : num1 % den1 = s1 at a1 r1
  generalize hq2 : num2 / den2 = q2 at a2
  generalize hr2 : num2 % den2 = s2 at a2 r2
  have hqle : q1 ≤ q2 := by
    by_contra hc
    have hc' : q2 + 1 ≤ q1 := by omega
    have e1 : num2 * den1 < (q2 + 1) * den2 * den1 := by
      apply Nat.mul_lt_mul_of_pos_right _ h1
      rw [← a2]; nlinarith
    have e2 : (q2 + 1) * den2 * den1 ≤ q1 * den1 * den2 := by
      have := Nat.mul_le_mul_right (den2 * den1) hc'
      nlinarith
    have e3 : q1 * den1 * den2 ≤ num1 * den2 := by
      apply Nat.mul_le_mul_right
      rw [← a1]; nlinarith
    omega
  rcases Nat.lt_or_eq_of_le hqle with hlt | heq
  · calc round_half_even num1 den1 ≤ num1 / den1 + 1 := round_half_even_le _ _
      _ = q1 + 1 := by rw [hq1]
      _ ≤ q2 := hlt
      _ = num2 / den2 := hq2.symm
      _ ≤ round_half_even num2 den2 := round_half_even_ge _ _
  · subst heq
    have hs : s1 * den2 ≤ s2 * den1 := by
      have e : num1 * den2 = q1 * den1 * den2 + s1 * den2 := by rw [← a1]; ring
      have e' : num2 * den1 = q1 * den1 * den2 + s2 * den1 := by rw [← a2]; ring
      omega
    unfold round_half_even
    simp only [hq1, hr1, hq2, hr2]
    by_cases c1 : den1 < 2 * s1 ∨ (2 * s1 = den1 ∧ q1 % 2 = 1)
    · have c2 : den2 < 2 * s2 ∨ (2 * s2 = den2 ∧ q1 % 2 = 1) := by
        rcases c1 with c | ⟨c, codd⟩
        · left
          have : den1 * den2 < 2 * s2 * den1 := by nlinarith
          by_contra hcon
          have : 2 * s2 * den1 ≤ den2 * den1 := Nat.mul_le_mul_right _ (by omega)
          nlinarith
        · have hge : den2 ≤ 2 * s2 := by
            by_contra hcon
            have h3 : 2 * s2 + 1 ≤ den2 := by omega
            have h4 : (2 * s2 + 1) * den1 ≤ den2 * den1 := Nat.mul_le_mul_right _ h3
            nlinarith
          rcases Nat.lt_or_eq_of_le hge with c' | c'
          · exact Or.inl c'
          · exact Or.inr ⟨c'.symm, codd⟩
      rw [if_pos c1, if_pos c2]
    · rw [if_neg c1]
      split <;> omega

theorem scaled_div (n d : Nat) (hd : 0 < d) (e : Int) :
    ((n * 2 ^ (-e).toNat : Nat) : ℚ) / ((d * 2 ^ e.toNat : Nat) : ℚ)
      = (n : ℚ) / d / (2 : ℚ) ^ e := by
  have hdq : (d : ℚ) ≠ 0 := by exact_mod_cast (Nat.pos_iff_ne_zero.mp hd)
  rw [two_zpow_split e]
  push_cast
  field_simp

theorem nat_div_le_cast (num den : Nat) : ((num / den : Nat) : ℚ) ≤ (num : ℚ) / den :=
  Nat.cast_div_le

theorem cast_lt_nat_div_succ (num den : Nat) (hden : 0 < den) :
    (num : ℚ) / den < ((num / den : Nat) : ℚ) + 1 := by
  have hq : (0 : ℚ) < den := by exact_mod_cast hden
  rw [div_lt_iff₀ hq]
  have h1 := Nat.div_add_mod num den
  have h2 := Nat.mod_lt num hden
  have : num < (num / den + 1) * den := by nlinarith
  exact_mod_cast this


theorem round_exponent_mono (n1 d1 n2 d2 : Nat) (hn1 : 0 < n1) (hd1 : 0 < d1) (hn2 : 0 < n2)
    (hd2 : 0 < d2) (h : n1 * d2 ≤ n2 * d1) :
    floor_log2 n1 d1 ≤ floor_log2 n2 d2 := by
  obtain ⟨a1, _⟩ := floor_log2_spec n1 d1 hn1 hd1
  obtain ⟨_, b2⟩ := floor_log2_spec n2 d2 hn2 hd2
  have hq1 : (0 : ℚ) < d1 := by exact_mod_cast hd1
  have hq2 : (0 : ℚ) < d2 := by exact_mod_cast hd2
  have hx : (n1 : ℚ) / d1 ≤ (n2 : ℚ) / d2 := by
    rw [div_le_div_iff₀ hq1 hq2]
    exact_mod_cast h
  have : (2 : ℚ) ^ floor_log2 n1 d1 < (2 : ℚ) ^ (floor_log2 n2 d2 + 1) :=
    lt_of_le_of_lt (le_trans a1 hx) b2
  have := (zpow_lt_zpow_iff_right₀ (by norm_num : (1 : ℚ) < 2)).mp this
  omega

/-- The rounded value is at most the next power of two. -/
theorem round_value_le (n d : Nat) (hn : 0 < n) (hd : 0 < d) :
    (round_mantissa n d : ℚ) * (2 : ℚ) ^ round_exponent n d
      ≤ (2 : ℚ) ^ (floor_log2 n d + 1) := by
  obtain ⟨_, hb⟩ := floor_log2_spec n d hn hd
  have hpos : (0 : ℚ) < (2 : ℚ) ^ round_exponent n d := zpow_pos (by norm_num) _
  have hsc := scaled_div n d hd (round_exponent n d)
  have hden : 0 < d * 2 ^ (round_exponent n d).toNat :=
    Nat.mul_pos hd (Nat.pow_pos (by norm_num))
  have hlt : ((n * 2 ^ (-round_exponent n d).toNat : Nat) : ℚ)
      / ((d * 2 ^ (round_exponent n d).toNat : Nat) : ℚ)
      < (2 : ℚ) ^ (floor_log2 n d + 1 - round_exponent n d) := by
    rw [hsc, zpow_sub₀ (by norm_num)]
    exact div_lt_div_of_pos_right hb hpos
  by_cases hc : round_exponent n d ≤ floor_log2 n d + 1
  · -- the bound is an integer number of units
    have hk : (2 : ℚ) ^ (floor_log2 n d + 1 - round_exponent n d)
        = ((2 ^ (floor_log2 n d + 1 - round_exponent n d).toNat : Nat) : ℚ) := by
      rw [Nat.cast_pow, Nat.cast_ofNat, ← zpow_natCast, Int.toNat_of_nonneg (by omega)]
    have hfloor : (n * 2 ^ (-round_exponent n d).toNat) / (d * 2 ^ (round_exponent n d).toNat)
        < 2 ^ (floor_log2 n d + 1 - round_exponent n d).toNat := by
      have := lt_of_le_of_lt (nat_div_le_cast _ _) hlt
      rw [hk] at this
      exact_mod_cast this
    have hq : round_mantissa n d ≤ 2 ^ (floor_log2 n d + 1 - round_exponent n d).toNat :=
      le_trans (round_half_even_le _ _) hfloor
    have hq' : (round_mantissa n d : ℚ)
        ≤ (2 : ℚ) ^ (floor_log2 n d + 1 - round_exponent n d) := by
      rw [hk]; exact_mod_cast hq
    calc (round_mantissa n d : ℚ) * (2 : ℚ) ^ round_exponent n d
        ≤ (2 : ℚ) ^ (floor_log2 n d + 1 - round_exponent n d) * (2 : ℚ) ^ round_exponent n d :=
          mul_le_mul_of_nonneg_right hq' (le_of_lt hpos)
      _ = (2 : ℚ) ^ (floor_log2 n d + 1) := by
          rw [← zpow_add₀ (by norm_num)]; congr 1; ring
  · -- the quotient is below half a unit
    have hhalf : (2 : ℚ) ^ (floor_log2 n d + 1 - round_exponent n d) ≤ (2 : ℚ) ^ (-1 : Int) :=
      zpow_le_zpow_right₀ (by norm_num) (by omega)
    have hq0 : (0 : ℚ) < ((d * 2 ^ (round_exponent n d).toNat : Nat) : ℚ) := by
      exact_mod_cast hden
    have hsmall : 2 * (n * 2 ^ (-round_exponent n d).toNat)
        < d * 2 ^ (round_exponent n d).toNat := by
      have h1 := lt_of_lt_of_le hlt hhalf
      rw [div_lt_iff₀ hq0] at h1
      have h2 : (2 : ℚ) ^ (-1 : Int) = 1 / 2 := by norm_num
      rw [h2] at h1
      have h3 : (2 : ℚ) * ((n * 2 ^ (-round_exponent n d).toNat : Nat) : ℚ)
          < ((d * 2 ^ (round_exponent n d).toNat : Nat) : ℚ) := by linarith
      exact_mod_cast h3
    have hz : round_mantissa n d = 0 := round_half_even_small _ _ hsmall
    rw [hz]
    simp only [Nat.cast_zero, zero_mul]
    exact le_of_lt (zpow_pos (by norm_num) _)

/-- A rounded normal value is at least the power of two below the quotient. -/
theorem round_value_ge (n d : Nat) (hn : 0 < n) (hd : 0 < d)
    (hnormal : round_exponent n d = floor_log2 n d - 52) :
    (2 : ℚ) ^ floor_log2 n d
      ≤ (round_mantissa n d : ℚ) * (2 : ℚ) ^ round_exponent n d := by
  obtain ⟨ha, _⟩ := floor_log2_spec n d hn hd
  have hpos : (0 : ℚ) < (2 : ℚ) ^ round_exponent n d := zpow_pos (by norm_num) _
  have hsc := scaled_div n d hd (round_exponent n d)
  have hden : 0 < d * 2 ^ (round_exponent n d).toNat :=
    Nat.mul_pos hd (Nat.pow_pos (by norm_num))
  have hq0 : (0 : ℚ) < ((d * 2 ^ (round_exponent n d).toNat : Nat) : ℚ) := by
    exact_mod_cast hden
  have hge : ((2 ^ 52 : Nat) : ℚ) ≤ ((n * 2 ^ (-round_exponent n d).toNat : Nat) : ℚ)
      / ((d * 2 ^ (round_exponent n d).toNat : Nat) : ℚ) := by
    rw [hsc, le_div_iff₀ hpos]
    have : ((2 ^ 52 : Nat) : ℚ) * (2 : ℚ) ^ round_exponent n d = (2 : ℚ) ^ floor_log2 n d := by
      rw [hnormal, Nat.cast_pow, Nat.cast_ofNat, ← zpow_natCast, ← zpow_add₀ (by norm_num)]
      congr 1; omega
    rw [this]; exact ha
  have hfloor : 2 ^ 52 ≤ (n * 2 ^ (-round_exponent n d).toNat)
      / (d * 2 ^ (round_exponent n d).toNat) := by
    rw [Nat.le_div_iff_mul_le hden]
    rw [le_div_iff₀ hq0] at hge
    exact_mod_cast hge
  have hq : 2 ^ 52 ≤ round_mantissa n d := le_trans hfloor (round_half_even_ge _ _)
  have hq' : ((2 ^ 52 : Nat) : ℚ) ≤ (round_mantissa n d : ℚ) := by exact_mod_cast hq
  calc (2 : ℚ) ^ floor_log2 n d
      = ((2 ^ 52 : Nat) : ℚ) * (2 : ℚ) ^ round_exponent n d := by
        rw [hnormal, Nat.cast_pow, Nat.cast_ofNat, ← zpow_natCast, ← zpow_add₀ (by norm_num)]
        congr 1; omega
    _ ≤ (round_mantissa n d : ℚ) * (2 : ℚ) ^ round_exponent n d :=
        mul_le_mul_of_nonneg_right hq' (le_of_lt hpos)

/-- Rounding to binary64 is monotone in the quotient. -/
theorem round_value_mono (n1 d1 n2 d2 : Nat) (hn1 : 0 < n1) (hd1 : 0 < d1) (hd2 : 0 < d2)
    (h : n1 * d2 ≤ n2 * d1) :
    (round_mantissa n1 d1 : ℚ) * (2 : ℚ) ^ round_exponent n1 d1
      ≤ (round_mantissa n2 d2 : ℚ) * (2 : ℚ) ^ round_exponent n2 d2 := by
  have hn2 : 0 < n2 := by
    rcases Nat.eq_zero_or_pos n2 with h0 | h0
    · rw [h0, Nat.zero_mul] at h
      have := Nat.mul_pos hn1 hd2
      omega
    · exact h0
  have hL := round_exponent_mono n1 d1 n2 d2 hn1 hd1 hn2 hd2 h
  have he : round_exponent n1 d1 ≤ round_exponent n2 d2 := by
    unfold round_exponent; omega
  rcases lt_or_eq_of_le he with hlt | heq
  · -- different exponents: a power of two lies between the two values
    have hnormal : round_exponent n2 d2 = floor_log2 n2 d2 - 52 := by
      unfold round_exponent at hlt ⊢; omega
    have hLlt : floor_log2 n1 d1 + 1 ≤ floor_log2 n2 d2 := by
      unfold round_exponent at hlt; omega
    calc (round_mantissa n1 d1 : ℚ) * (2 : ℚ) ^ round_exponent n1 d1
        ≤ (2 : ℚ) ^ (floor_log2 n1 d1 + 1) := round_value_le n1 d1 hn1 hd1
      _ ≤ (2 : ℚ) ^ floor_log2 n2 d2 := zpow_le_zpow_right₀ (by norm_num) hLlt
      _ ≤ (round_mantissa n2 d2 : ℚ) * (2 : ℚ) ^ round_exponent n2 d2 :=
          round_value_ge n2 d2 hn2 hd2 hnormal
  · -- the same exponent: the numbers of units are ordered
    have hq : round_mantissa n1 d1 ≤ round_mantissa n2 d2 := by
      unfold round_mantissa
      rw [← heq]
      apply round_half_even_mono
      · exact Nat.mul_pos hd1 (Nat.pow_pos (by norm_num))
      · exact Nat.mul_pos hd2 (Nat.pow_pos (by norm_num))
      · have := Nat.mul_le_mul_right
          (2 ^ (-round_exponent n1 d1).toNat * 2 ^ (round_exponent n1 d1).toNat) h
        nlinarith
    rw [← heq]
    exact mul_le_mul_of_nonneg_right (by exact_mod_cast hq)
      (le_of_lt (zpow_pos (by norm_num) _))


theorem round_zero (s : Bool) (d : Nat) : Double.round s 0 d = Double.finite s 0 0 := by
  simp [Double.round]

/-- A quotient below `2^64` is rounded to a finite value. -/
theorem round_finite (s : Bool) (n d : Nat) (hn : 0 < n) (hd : 0 < d) (hb : n < d * 2 ^ 64) :
    Double.round s n d = Double.finite s (round_mantissa n d) (round_exponent n d) := by
  obtain ⟨ha, _⟩ := floor_log2_spec n d hn hd
  have hdq : (0 : ℚ) < d := by exact_mod_cast hd
  have hx : (n : ℚ) / d < (2 : ℚ) ^ (64 : Int) := by
    rw [div_lt_iff₀ hdq]
    have : (n : ℚ) < (d : ℚ) * ((2 ^ 64 : Nat) : ℚ) := by exact_mod_cast hb
    have h64 : ((2 ^ 64 : Nat) : ℚ) = (2 : ℚ) ^ (64 : Int) := by norm_num
    rw [h64] at this
    linarith
  have hL : floor_log2 n d < 64 :=
    (zpow_lt_zpow_iff_right₀ (by norm_num : (1 : ℚ) < 2)).mp (lt_of_le_of_lt ha hx)
  have he : round_exponent n d ≤ 11 := by unfold round_exponent; omega
  have hn0 : n ≠ 0 := by omega
  unfold Double.round
  rw [if_neg hn0, if_neg]
  omega

theorem val_round (n d : Nat) (hd : 0 < d) (hb : n < d * 2 ^ 64) :
    ∃ q e, Double.round false n d = Double.finite false q e := by
  rcases Nat.eq_zero_or_pos n with h | h
  · exact ⟨0, 0, by rw [h, round_zero]⟩
  · exact ⟨_, _, round_finite false n d h hd hb⟩

/-- Rounding to binary64 is monotone, on quotients below `2^64`. -/
theorem val_round_mono (n1 d1 n2 d2 : Nat) (hd1 : 0 < d1) (hd2 : 0 < d2)
    (h : (n1 : ℚ) / d1 ≤ (n2 : ℚ) / d2) (hb : n2 < d2 * 2 ^ 64) :
    Double.val (Double.round false n1 d1) ≤ Double.val (Double.round false n2 d2) := by
  have hq1 : (0 : ℚ) < d1 := by exact_mod_cast hd1
  have hq2 : (0 : ℚ) < d2 := by exact_mod_cast hd2
  have hc : n1 * d2 ≤ n2 * d1 := by
    rw [div_le_div_iff₀ hq1 hq2] at h
    exact_mod_cast h
  have hb1 : n1 < d1 * 2 ^ 64 := by
    by_contra hcon
    have h1 : d1 * 2 ^ 64 * d2 ≤ n1 * d2 := Nat.mul_le_mul_right _ (by omega)
    have h2 : n2 * d1 < d2 * 2 ^ 64 * d1 := Nat.mul_lt_mul_of_pos_right hb hd1
    nlinarith
  rcases Nat.eq_zero_or_pos n1 with h1 | h1
  · rw [h1, round_zero]
    rcases Nat.eq_zero_or_pos n2 with h2 | h2
    · rw [h2, round_zero]
    · rw [round_finite false n2 d2 h2 hd2 hb]
      simp only [Double.val, Bool.false_eq_true, if_false, Nat.cast_zero, zero_mul]
      exact mul_nonneg (Nat.cast_nonneg _) (le_of_lt (zpow_pos (by norm_num) _))
  · have h2 : 0 < n2 := by
      rcases Nat.eq_zero_or_pos n2 with h0 | h0
      · rw [h0, Nat.zero_mul] at hc
        have := Nat.mul_pos h1 hd2
        omega
      · exact h0
    rw [round_finite false n1 d1 h1 hd1 hb1, round_finite false n2 d2 h2 hd2 hb]
    simp only [Double.val, Bool.false_eq_true, if_false]
    exact round_value_mono n1 d1 n2 d2 h1 hd1 hd2 hc

/-- An integer below `2^53` is converted exactly. -/
theorem val_round_int (n : Nat) (hb : n < 2 ^ 53) :
    Double.val (Double.round false n 1) = n := by
  rcases Nat.eq_zero_or_pos n with h | hn
  · rw [h, round_zero]; simp [Double.val]
  · obtain ⟨ha, hc⟩ := floor_log2_spec n 1 hn (by norm_num)
    simp only [Nat.cast_one, div_one] at ha hc
    have hL1 : floor_log2 n 1 < 53 := by
      have : (n : ℚ) < (2 : ℚ) ^ (53 : Int) := by
        have : (n : ℚ) < ((2 ^ 53 : Nat) : ℚ) := by exact_mod_cast hb
        have h53 : ((2 ^ 53 : Nat) : ℚ) = (2 : ℚ) ^ (53 : Int) := by norm_num
        rwa [h53] at this
      exact (zpow_lt_zpow_iff_right₀ (by norm_num : (1 : ℚ) < 2)).mp (lt_of_le_of_lt ha this)
    have hL0 : 0 ≤ floor_log2 n 1 := by
      have h1 : (2 : ℚ) ^ (0 : Int) ≤ (n : ℚ) := by
        simp only [zpow_zero]; exact_mod_cast hn
      have := (zpow_lt_zpow_iff_right₀ (by norm_num : (1 : ℚ) < 2)).mp (lt_of_le_of_lt h1 hc)
      omega
    have he : round_exponent n 1 = floor_log2 n 1 - 52 := by unfold round_exponent; omega
    have hb64 : n < 1 * 2 ^ 64 := by
      have : (2 : Nat) ^ 53 ≤ 2 ^ 64 := Nat.pow_le_pow_right (by norm_num) (by norm_num)
      omega
    rw [round_finite false n 1 hn (by norm_num) hb64]
    have het : (round_exponent n 1).toNat = 0 := by omega
    have hm : round_mantissa n 1 = n * 2 ^ (-round_exponent n 1).toNat := by
      unfold round_mantissa
      rw [het, pow_zero, Nat.mul_one,
        round_half_even_exact _ 1 (by norm_num) (Nat.mod_one _), Nat.div_one]
    simp only [Double.val, Bool.false_eq_true, if_false]
    rw [hm]
    push_cast
    rw [← zpow_natCast, Int.toNat_of_nonneg (by omega), mul_assoc, ← zpow_add₀ (by norm_num)]
    simp

theorem val_round_nonneg (n d : Nat) : 0 ≤ Double.val (Double.round false n d) := by
  unfold Double.round
  split
  · simp [Double.val]
  · split
    · simp [Double.val]
    · simp only [Double.val, Bool.false_eq_true, if_false]
      exact mul_nonneg (Nat.cast_nonneg _) (le_of_lt (zpow_pos (by norm_num) _))


theorem signed_cast (s : Bool) (m : Nat) (e e0 : Int) (h : e0 ≤ e) :
    ((Double.signed s m e e0 : Int) : ℚ) = Double.val (Double.finite s m e) / (2 : ℚ) ^ e0 := by
  have hp : ((2 : ℚ) ^ (e - e0).toNat) = (2 : ℚ) ^ e / (2 : ℚ) ^ e0 := by
    rw [← zpow_natCast, Int.toNat_of_nonneg (by omega), zpow_sub₀ (by norm_num)]
  cases s with
  | false =>
    simp only [Double.signed, Double.val, Bool.false_eq_true, if_false]
    push_cast
    rw [hp]; ring
  | true =>
    simp only [Double.signed, Double.val, if_true]
    push_cast
    rw [hp]; ring

/-- The comparison `<=` of finite values is the one of the numbers they are. -/
theorem le_iff_val_le (s1 : Bool) (m1 : Nat) (e1 : Int) (s2 : Bool) (m2 : Nat) (e2 : Int) :
    Double.le (Double.finite s1 m1 e1) (Double.finite s2 m2 e2) = true ↔
      Double.val (Double.finite s1 m1 e1) ≤ Double.val (Double.finite s2 m2 e2) := by
  have hpos : (0 : ℚ) < (2 : ℚ) ^ (min e1 e2) := zpow_pos (by norm_num) _
  simp only [Double.le, decide_eq_true_eq]
  rw [← Int.cast_le (R := ℚ), signed_cast s1 m1 e1 _ (min_le_left e1 e2),
    signed_cast s2 m2 e2 _ (min_le_right e1 e2), div_le_div_iff_of_pos_right hpos]

theorem nat_lt_of_div_lt (N D : Nat) (hD : 0 < D) (h : (N : ℚ) / D < (2 : ℚ) ^ (64 : Int)) :
    N < D * 2 ^ 64 := by
  have hq : (0 : ℚ) < D := by exact_mod_cast hD
  rw [div_lt_iff₀ hq] at h
  have h64 : (2 : ℚ) ^ (64 : Int) = ((2 ^ 64 : Nat) : ℚ) := by norm_num
  rw [h64] at h
  have : (N : ℚ) < ((D * 2 ^ 64 : Nat) : ℚ) := by
    push_cast at h ⊢; linarith
  exact_mod_cast this

/-- The quotient of a non-negative finite value by `1e9` is the rounding of the
exact quotient. -/
theorem div_billion_eq (m : Nat) (e : Int) :
    ∃ N D : Nat, 0 < D ∧
      Double.div (Double.finite false m e) (Double.finite false 1000000000 0)
        = Double.round false N D ∧
      (N : ℚ) / D = Double.val (Double.finite false m e) / 1000000000 := by
  refine ⟨m * 2 ^ (e - 0).toNat, 1000000000 * 2 ^ (0 - e).toNat,
    Nat.mul_pos (by norm_num) (Nat.pow_pos (by norm_num)), ?_, ?_⟩
  · simp [Double.div]
  · simp only [Double.val, Bool.false_eq_true, if_false, sub_zero, zero_sub]
    rw [two_zpow_split e]
    push_cast
    field_simp
    left
    ring

/-- The sum of two non-negative finite values is the rounding of the exact sum. -/
theorem add_nonneg_eq (m1 : Nat) (e1 : Int) (m2 : Nat) (e2 : Int) :
    ∃ N D : Nat, 0 < D ∧
      Double.add (Double.finite false m1 e1) (Double.finite false m2 e2)
        = Double.round false N D ∧
      (N : ℚ) / D = Double.val (Double.finite false m1 e1)
        + Double.val (Double.finite false m2 e2) := by
  have hnn : ¬ (Double.signed false m1 e1 (min e1 e2)
      + Double.signed false m2 e2 (min e1 e2) < 0) := by
    simp only [Double.signed, Bool.false_eq_true, if_false]
    omega
  refine ⟨(Double.signed false m1 e1 (min e1 e2)
      + Double.signed false m2 e2 (min e1 e2)).natAbs * 2 ^ (min e1 e2).toNat,
    2 ^ (-(min e1 e2)).toNat, Nat.pow_pos (by norm_num), ?_, ?_⟩
  · simp only [Double.add, hnn, decide_False]
  · have habs : (((Double.signed false m1 e1 (min e1 e2)
        + Double.signed false m2 e2 (min e1 e2)).natAbs : Nat) : ℚ)
        = ((Double.signed false m1 e1 (min e1 e2)
          + Double.signed false m2 e2 (min e1 e2) : Int) : ℚ) := by
      rw [Nat.cast_natAbs, abs_of_nonneg (not_lt.mp hnn)]
    have hpos : (0 : ℚ) < (2 : ℚ) ^ (min e1 e2) := zpow_pos (by norm_num) _
    rw [Nat.cast_mul, habs, Int.cast_add, signed_cast false m1 e1 _ (min_le_left e1 e2),
      signed_cast false m2 e2 _ (min_le_right e1 e2), mul_div_assoc]
    have h2 : (((2 ^ (min e1 e2).toNat : Nat) : ℚ)) / ((2 ^ (-(min e1 e2)).toNat : Nat) : ℚ)
        = (2 : ℚ) ^ (min e1 e2) := (two_zpow_split _).symm
    rw [h2]
    field_simp


/-- The quotient `(double)k / 1e9` for `k < 10^9`: a finite value between 0 and 1,
the rounding of `k / 10^9`. -/
theorem frac_spec (k : Nat) (hk : k < 1000000000) :
    ∃ N D : Nat, 0 < D ∧ (N : ℚ) / D = (k : ℚ) / 1000000000 ∧
      Double.div (Double.round false k 1) (Double.finite false 1000000000 0)
        = Double.round false N D ∧
      (∃ q e, Double.round false N D = Double.finite false q e) ∧
      Double.val (Double.round false N D) ≤ 1 := by
  have hk53 : k < 2 ^ 53 := by
    have : (1000000000 : Nat) < 2 ^ 53 := by norm_num
    omega
  have hk64 : k < 1 * 2 ^ 64 := by
    have : (1000000000 : Nat) < 1 * 2 ^ 64 := by norm_num
    omega
  obtain ⟨qk, ek, hrk⟩ := val_round k 1 (by norm_num) hk64
  have hvk : Double.val (Double.finite false qk ek) = k := by
    rw [← hrk]; exact val_round_int k hk53
  obtain ⟨N, D, hD, hdiv, hratio⟩ := div_billion_eq qk ek
  rw [hvk] at hratio
  have hlt1 : (N : ℚ) / D ≤ ((1 : Nat) : ℚ) / ((1 : Nat) : ℚ) := by
    rw [hratio, Nat.cast_one, div_one, div_le_one (by norm_num)]
    exact_mod_cast le_of_lt hk
  have hN64 : N < D * 2 ^ 64 := by
    apply nat_lt_of_div_lt N D hD
    have : ((1 : Nat) : ℚ) / ((1 : Nat) : ℚ) < (2 : ℚ) ^ (64 : Int) := by norm_num
    exact lt_of_le_of_lt hlt1 this
  refine ⟨N, D, hD, hratio, ?_, val_round N D hD hN64, ?_⟩
  · rw [hrk]; exact hdiv
  · have h1 := val_round_mono N D 1 1 hD (by norm_num) hlt1 (by norm_num)
    have h2 := val_round_int 1 (by norm_num)
    rw [h2] at h1
    exact_mod_cast h1

/-- The time of a sane reading: a finite value, the rounding of the sum of
`tv_sec` and of the rounded quotient of `tv_nsec` by `10^9`. -/
theorem reading_seconds_spec (ts : timespec) (h : sane_reading ts) :
    ∃ N D Nf Df : Nat, 0 < D ∧ 0 < Df ∧
      (Nf : ℚ) / Df = (ts.tv_nsec : ℚ) / 1000000000 ∧
      (N : ℚ) / D = (ts.tv_sec : ℚ) + Double.val (Double.round false Nf Df) ∧
      N < D * 2 ^ 64 ∧
      reading_seconds ts = Double.round false N D := by
  obtain ⟨h1, h2, h3, h4⟩ := h
  obtain ⟨sec, hsec⟩ := Int.eq_ofNat_of_zero_le h1
  obtain ⟨nsec, hnsec⟩ := Int.eq_ofNat_of_zero_le h3
  have hs53 : sec < 2 ^ 53 := by
    rw [hsec] at h2; exact_mod_cast h2
  have hn9 : nsec < 1000000000 := by
    rw [hnsec] at h4; exact_mod_cast h4
  have hs64 : sec < 1 * 2 ^ 64 := by
    have : (2 : Nat) ^ 53 ≤ 1 * 2 ^ 64 := by norm_num
    omega
  obtain ⟨Nf, Df, hDf, hfr, hfdiv, ⟨qf, ef, hff⟩, hf1⟩ := frac_spec nsec hn9
  obtain ⟨qs, es, hrs⟩ := val_round sec 1 (by norm_num) hs64
  have hvs : Double.val (Double.finite false qs es) = sec := by
    rw [← hrs]; exact val_round_int sec hs53
  obtain ⟨N, D, hD, hadd, hratio⟩ := add_nonneg_eq qs es qf ef
  have hsum : (N : ℚ) / D = (ts.tv_sec : ℚ) + Double.val (Double.round false Nf Df) := by
    rw [hratio, hvs, hff, hsec]; simp
  refine ⟨N, D, Nf, Df, hD, hDf, ?_, hsum, ?_, ?_⟩
  · rw [hfr, hnsec]; simp
  · apply nat_lt_of_div_lt N D hD
    rw [hsum, hsec]
    have hs' : ((sec : Int) : ℚ) < (2 : ℚ) ^ (53 : Int) := by
      have : (sec : ℚ) < ((2 ^ 53 : Nat) : ℚ) := by exact_mod_cast hs53
      have h53 : ((2 ^ 53 : Nat) : ℚ) = (2 : ℚ) ^ (53 : Int) := by norm_num
      rw [h53] at this
      exact_mod_cast this
    have : (2 : ℚ) ^ (53 : Int) + 1 < (2 : ℚ) ^ (64 : Int) := by norm_num
    linarith
  · have hds : decide (ts.tv_sec < 0) = false := by
      rw [decide_eq_false_iff_not]; omega
    have hdn : decide (ts.tv_nsec < 0) = false := by
      rw [decide_eq_false_iff_not]; omega
    have has : ts.tv_sec.natAbs = sec := by rw [hsec]; rfl
    have han : ts.tv_nsec.natAbs = nsec := by rw [hnsec]; rfl
    unfold reading_seconds
    rw [hds, hdn, has, han, hrs, hfdiv, hff, hadd]

/-- The conversion of sane readings is monotone: a reading that is not earlier
than another is converted to a finite value that is not smaller. -/
theorem reading_seconds_mono (a b : timespec) (ha : sane_reading a) (hb : sane_reading b)
    (h : timespec_le a b) :
    Double.is_finite (reading_seconds a) = true ∧
    Double.is_finite (reading_seconds b) = true ∧
    Double.le (reading_seconds a) (reading_seconds b) = true := by
  obtain ⟨Na, Da, Nfa, Dfa, hDa, hDfa, hfa, hsa, hba, hra⟩ := reading_seconds_spec a ha
  obtain ⟨Nb, Db, Nfb, Dfb, hDb, hDfb, hfb, hsb, hbb, hrb⟩ := reading_seconds_spec b hb
  obtain ⟨qa, ea, hqa⟩ := val_round Na Da hDa hba
  obtain ⟨qb, eb, hqb⟩ := val_round Nb Db hDb hbb
  have hNfb : Nfb < Dfb * 2 ^ 64 := by
    apply nat_lt_of_div_lt Nfb Dfb hDfb
    rw [hfb]
    have : (b.tv_nsec : ℚ) < 1000000000 := by exact_mod_cast hb.2.2.2
    have h9 : (b.tv_nsec : ℚ) / 1000000000 < 1 := by
      rw [div_lt_one (by norm_num)]; exact this
    have : (1 : ℚ) < (2 : ℚ) ^ (64 : Int) := by norm_num
    linarith
  have hNfa : Nfa < Dfa * 2 ^ 64 := by
    apply nat_lt_of_div_lt Nfa Dfa hDfa
    rw [hfa]
    have : (a.tv_nsec : ℚ) < 1000000000 := by exact_mod_cast ha.2.2.2
    have h9 : (a.tv_nsec : ℚ) / 1000000000 < 1 := by
      rw [div_lt_one (by norm_num)]; exact this
    have : (1 : ℚ) < (2 : ℚ) ^ (64 : Int) := by norm_num
    linarith
  have hfa1 : Double.val (Double.round false Nfa Dfa) ≤ 1 := by
    have hle : (Nfa : ℚ) / Dfa ≤ ((1 : Nat) : ℚ) / ((1 : Nat) : ℚ) := by
      rw [hfa, Nat.cast_one, div_one, div_le_one (by norm_num)]
      exact_mod_cast le_of_lt ha.2.2.2
    have h1 := val_round_mono Nfa Dfa 1 1 hDfa (by norm_num) hle (by norm_num)
    rwa [val_round_int 1 (by norm_num), Nat.cast_one] at h1
  have hsum : (Na : ℚ) / Da ≤ (Nb : ℚ) / Db := by
    rw [hsa, hsb]
    rcases h with hlt | ⟨heq, hle⟩
    · have h1 : (a.tv_sec : ℚ) + 1 ≤ (b.tv_sec : ℚ) := by exact_mod_cast hlt
      have h2 := val_round_nonneg Nfb Dfb
      linarith
    · have hfr : (Nfa : ℚ) / Dfa ≤ (Nfb : ℚ) / Dfb := by
        rw [hfa, hfb]
        apply div_le_div_of_nonneg_right _ (by norm_num)
        exact_mod_cast hle
      have := val_round_mono Nfa Dfa Nfb Dfb hDfa hDfb hfr hNfb
      rw [heq]
      linarith
  have hval := val_round_mono Na Da Nb Db hDa hDb hsum hbb
  rw [hra, hrb, hqa, hqb]
  rw [hqa, hqb] at hval
  exact ⟨rfl, rfl, (le_iff_val_le false qa ea false qb eb).mpr hval⟩

/-! ## The arithmetic on examples -/

/-- The conversion of the reading `{0, 700000000}`: the binary64 value nearest to
0.7, `0x1.6666666666666p-1`. -/
theorem to_double_seven_tenths :
    to_double { tv_sec := 0, tv_nsec := 700000000 }
      = Double.finite false 6305039478318694 (-53) := by
  decide

/-- In binary64 `0.7 - 0.2` is `0.49999999999999994`, below `0.5`. -/
theorem sub_seven_tenths_two_tenths :
    Double.sub (to_double { tv_sec := 0, tv_nsec := 700000000 })
        (to_double { tv_sec := 0, tv_nsec := 200000000 })
      = Double.finite false 9007199254740991 (-54) ∧
    Double.ge (Double.sub (to_double { tv_sec := 0, tv_nsec := 700000000 })
        (to_double { tv_sec := 0, tv_nsec := 200000000 })) half_second = false := by
  decide

/-- In binary64 `0.1 + 0.2` is `0.30000000000000004`. -/
theorem add_one_tenth_two_tenths :
    Double.add (to_double { tv_sec := 0, tv_nsec := 100000000 })
        (to_double { tv_sec := 0, tv_nsec := 200000000 })
      = Double.finite false 5404319552844596 (-54) := by
  decide

/-- Integers beyond `2^53` are rounded, ties to even: `2^53 + 1` to `2^53` and
`2^53 + 3` to `2^53 + 4`; and `-(2^53 + 1)` to `-2^53`. -/
theorem of_int_ties_to_even :
    Double.of_int (2 ^ 53 + 1) = Double.finite false (2 ^ 52) 1 ∧
    Double.of_int (2 ^ 53 + 3) = Double.finite false (2 ^ 52 + 2) 1 ∧
    Double.of_int (-(2 ^ 53 + 1)) = Double.finite true (2 ^ 52) 1 := by
  decide

set_option maxRecDepth 8000 in
set_option exponentiation.threshold 2000 in
/-- The largest finite value is `(2^53 - 1) * 2^971`; a quotient of
`2^1024 - 2^970` or more is rounded to an infinity. -/
theorem round_overflow :
    Double.round false (2 ^ 1024 - 2 ^ 970 - 1) 1 = Double.finite false (2 ^ 53 - 1) 971 ∧
    Double.round false (2 ^ 1024 - 2 ^ 970) 1 = Double.inf false ∧
    Double.round true (2 ^ 1024) 1 = Double.inf true := by
  decide

set_option maxRecDepth 8000 in
set_option exponentiation.threshold 2000 in
/-- The smallest positive value is `2^(-1074)`; half of it is rounded to 0 and
three halves of it to `2 * 2^(-1074)`. -/
theorem round_subnormal :
    Double.round false 1 (2 ^ 1074) = Double.finite false 1 (-1074) ∧
    Double.round false 1 (2 ^ 1075) = Double.finite false 0 (-1074) ∧
    Double.round false 3 (2 ^ 1075) = Double.finite false 2 (-1074) := by
  decide

set_option maxRecDepth 8000 in
/-- The conversion is not monotone on every `timespec`: with `tv_sec` at `-2^53`
the reading `{-2^53 - 1, 900000000}` is earlier than `{-2^53, 100000000}` and is
converted to the larger value, so that the difference of the two times is
negative.  (A monotonic clock gives no such readings.) -/
theorem to_double_not_monotone :
    timespec_le { tv_sec := -2 ^ 53 - 1, tv_nsec := 900000000 }
      { tv_sec := -2 ^ 53, tv_nsec := 100000000 } ∧
    to_double { tv_sec := -2 ^ 53 - 1, tv_nsec := 900000000 }
      = Double.finite true (2 ^ 53 - 1) 0 ∧
    to_double { tv_sec := -2 ^ 53, tv_nsec := 100000000 }
      = Double.finite true (2 ^ 53) 0 ∧
    Double.ge (Double.sub (to_double { tv_sec := -2 ^ 53, tv_nsec := 100000000 })
      (to_double { tv_sec := -2 ^ 53 - 1, tv_nsec := 900000000 })) Double.zero = false := by
  decide

/-- Comparisons with a NaN are false, and `inf - inf` is a NaN. -/
theorem nan_compares_false :
    Double.lt Double.nan Double.zero = false ∧
    Double.ge Double.nan Double.zero = false ∧
    Double.ge Double.zero Double.nan = false ∧
    Double.sub (Double.inf false) (Double.inf false) = Double.nan := by
  decide

/-! ## The polling loop -/

theorem poll_loop_step (env : WaitEnv) (pid : Int) (timeout : Double) (out0 : WaitResult)
    (ws0 : Nat) (n fuel : Nat) (h0 : (env.waitpid n).ret = 0)
    (h1 : ¬ elapsed_reached env timeout n) :
    poll_loop env pid timeout (to_double (env.clock 0)) (fuel + 1)
        (loop_state env pid out0 ws0 n)
      = poll_loop env pid timeout (to_double (env.clock 0)) fuel
        (loop_state env pid out0 ws0 (n + 1)) := by
  rw [← loop_test_iff] at h1
  simp [poll_loop, sys_waitpid, sys_clock_gettime, loop_state, h0, h1, status_after,
    iter_calls]

theorem poll_loop_pending (env : WaitEnv) (pid : Int) (timeout : Double) (out0 : WaitResult)
    (ws0 : Nat) (n : Nat) (hp : Pending env timeout n) (fuel : Nat) :
    poll_loop env pid timeout (to_double (env.clock 0)) (n + fuel)
        (loop_state env pid out0 ws0 0)
      = poll_loop env pid timeout (to_double (env.clock 0)) fuel
        (loop_state env pid out0 ws0 n) := by
  induction n generalizing fuel with
  | zero => simp
  | succ k ih =>
    have hk : Pending env timeout k := fun m hm => hp m (Nat.lt_succ_of_lt hm)
    have hlast := hp k (Nat.lt_succ_self k)
    have e : k + 1 + fuel = k + (fuel + 1) := by omega
    rw [e, ih hk (fuel + 1), poll_loop_step env pid timeout out0 ws0 k fuel hlast.1 hlast.2]

/-- The state right after the `n`-th poll, when the loop was still running. -/
theorem poll_loop_nonzero (env : WaitEnv) (pid : Int) (timeout : Double) (out0 : WaitResult)
    (ws0 : Nat) (n : Nat) (hp : Pending env timeout n) (hr : (env.waitpid n).ret ≠ 0)
    (fuel : Nat) (hf : n < fuel) :
    poll_loop env pid timeout (to_double (env.clock 0)) fuel
        (loop_state env pid out0 ws0 0)
      = some ((env.waitpid n).ret,
          { out := out_init out0
            wait_status := status_after env ws0 (n + 1)
            calls := WaitCall.clock_gettime CLOCK_MONOTONIC :: iter_calls pid n ++
              [WaitCall.waitpid (pid_t_cast pid) WNOHANG]
            nwait := n + 1
            nclock := n + 1 }) := by
  obtain ⟨k, rfl⟩ : ∃ k, fuel = n + (k + 1) := ⟨fuel - n - 1, by omega⟩
  rw [poll_loop_pending env pid timeout out0 ws0 n hp (k + 1)]
  simp [poll_loop, sys_waitpid, loop_state, hr, status_after]

theorem poll_loop_timeout (env : WaitEnv) (pid : Int) (timeout : Double) (out0 : WaitResult)
    (ws0 : Nat) (n : Nat) (hp : Pending env timeout n) (hr : (env.waitpid n).ret = 0)
    (ht : elapsed_reached env timeout n) (fuel : Nat) (hf : n < fuel) :
    poll_loop env pid timeout (to_double (env.clock 0)) fuel
        (loop_state env pid out0 ws0 0)
      = some (0,
          { out := { out_init out0 with is_timeout := 1 }
            wait_status := status_after env ws0 (n + 1)
            calls := WaitCall.clock_gettime CLOCK_MONOTONIC :: iter_calls pid (n + 1)
            nwait := n + 1
            nclock := n + 2 }) := by
  obtain ⟨k, rfl⟩ : ∃ k, fuel = n + (k + 1) := ⟨fuel - n - 1, by omega⟩
  rw [poll_loop_pending env pid timeout out0 ws0 n hp (k + 1)]
  rw [← loop_test_iff] at ht
  simp [poll_loop, sys_waitpid, sys_clock_gettime, loop_state, hr, ht, status_after,
    iter_calls]

theorem poll_loop_out_of_fuel (env : WaitEnv) (pid : Int) (timeout : Double) (out0 : WaitResult)
    (ws0 : Nat) (fuel : Nat) (hp : Pending env timeout fuel) :
    poll_loop env pid timeout (to_double (env.clock 0)) fuel
        (loop_state env pid out0 ws0 0) = none := by
  have h := poll_loop_pending env pid timeout out0 ws0 fuel hp 0
  simpa [poll_loop] using h

/-! ## The waiter as a whole -/

theorem wait_blocking (env : WaitEnv) (fuel : Nat) (pid : Int) (timeout : Double)
    (out0 : WaitResult) (ws0 : Nat) (ht : Double.lt timeout Double.zero = true) :
    fixsubprocess_wait_subprocess env fuel pid timeout out0 ws0
      = some (decode (env.waitpid 0).ret
          { out := out_init out0
            wait_status := status_after env ws0 1
            calls := [WaitCall.waitpid (pid_t_cast pid) 0]
            nwait := 1
            nclock := 0 }) := by
  simp [fixsubprocess_wait_subprocess, ht, sys_waitpid, out_init, status_after]

theorem wait_polling_eq (env : WaitEnv) (fuel : Nat) (pid : Int) (timeout : Double)
    (out0 : WaitResult) (ws0 : Nat) (ht : Double.lt timeout Double.zero = false) :
    fixsubprocess_wait_subprocess env fuel pid timeout out0 ws0
      = (poll_loop env pid timeout (to_double (env.clock 0)) fuel
          (loop_state env pid out0 ws0 0)).map (fun p => decode p.1 p.2) := by
  simp only [fixsubprocess_wait_subprocess, ht, Bool.false_eq_true, if_false,
    sys_clock_gettime, loop_state, out_init, status_after, iter_calls, List.nil_append]
  cases poll_loop env pid timeout (to_double (env.clock 0)) fuel _ <;> rfl

/-- The result when the return value of the `n`-th call of `waitpid` is tested. -/
theorem wait_decisive (env : WaitEnv) (fuel : Nat) (pid : Int) (timeout : Double)
    (out0 : WaitResult) (ws0 : Nat) (n : Nat) (hd : Decisive env timeout n)
    (hf : Double.lt timeout Double.zero = true ∨ n < fuel) :
    fixsubprocess_wait_subprocess env fuel pid timeout out0 ws0
      = some (decode (env.waitpid n).ret
          { out := out_init out0
            wait_status := status_after env ws0 (n + 1)
            calls := decisive_calls pid timeout n
            nwait := n + 1
            nclock := if Double.lt timeout Double.zero then 0 else n + 1 }) := by
  by_cases ht : Double.lt timeout Double.zero = true
  · have hn : n = 0 := by simpa [Reaches, ht] using hd.1
    subst hn
    rw [wait_blocking env fuel pid timeout out0 ws0 ht]
    simp [decisive_calls, ht]
  · have hp : Pending env timeout n := by simpa [Reaches, ht] using hd.1
    have ht2 : Double.lt timeout Double.zero = false := by simpa using ht
    have hr : (env.waitpid n).ret ≠ 0 := hd.2 ht2
    have hlt : n < fuel := hf.resolve_left ht
    rw [wait_polling_eq env fuel pid timeout out0 ws0 ht2,
      poll_loop_nonzero env pid timeout out0 ws0 n hp hr fuel hlt]
    simp [decisive_calls, ht]

/-- The result when the loop is left because the timeout was reached. -/
theorem wait_timed_out (env : WaitEnv) (fuel : Nat) (pid : Int) (timeout : Double)
    (out0 : WaitResult) (ws0 : Nat) (n : Nat)
    (ht : Double.lt timeout Double.zero = false)
    (hp : Pending env timeout n) (hr : (env.waitpid n).ret = 0)
    (he : elapsed_reached env timeout n) (hf : n < fuel) :
    fixsubprocess_wait_subprocess env fuel pid timeout out0 ws0
      = some (decode 0
          { out := { out_init out0 with is_timeout := 1 }
            wait_status := status_after env ws0 (n + 1)
            calls := WaitCall.clock_gettime CLOCK_MONOTONIC :: iter_calls pid (n + 1)
            nwait := n + 1
            nclock := n + 2 }) := by
  rw [wait_polling_eq env fuel pid timeout out0 ws0 ht,
    poll_loop_timeout env pid timeout out0 ws0 n hp hr he fuel hf]
  rfl

theorem wait_out_of_fuel (env : WaitEnv) (fuel : Nat) (pid : Int) (timeout : Double)
    (out0 : WaitResult) (ws0 : Nat) (ht : Double.lt timeout Double.zero = false)
    (hp : Pending env timeout fuel) :
    fixsubprocess_wait_subprocess env fuel pid timeout out0 ws0 = none := by
  rw [wait_polling_eq env fuel pid timeout out0 ws0 ht,
    poll_loop_out_of_fuel env pid timeout out0 ws0 fuel hp]
  rfl

/-- Either the loop is still running after `fuel` polls, or it was left at some
earlier poll, for one of the two reasons. -/
theorem pending_or_left (env : WaitEnv) (timeout : Double) (fuel : Nat) :
    Pending env timeout fuel ∨
      ∃ n, n < fuel ∧ Pending env timeout n ∧
        ((env.waitpid n).ret ≠ 0 ∨
          ((env.waitpid n).ret = 0 ∧ elapsed_reached env timeout n)) := by
  induction fuel with
  | zero => exact Or.inl (fun m hm => absurd hm (Nat.not_lt_zero m))
  | succ k ih =>
    rcases ih with hp | ⟨n, hn, hpn, hc⟩
    · by_cases hr : (env.waitpid k).ret = 0
      · by_cases he : elapsed_reached env timeout k
        · exact Or.inr ⟨k, Nat.lt_succ_self k, hp, Or.inr ⟨hr, he⟩⟩
        · left
          intro m hm
          rcases Nat.lt_succ_iff_lt_or_eq.mp hm with h | h
          · exact hp m h
          · subst h; exact ⟨hr, he⟩
      · exact Or.inr ⟨k, Nat.lt_succ_self k, hp, Or.inl hr⟩
    · exact Or.inr ⟨n, Nat.lt_succ_of_lt hn, hpn, hc⟩

theorem pending_unique (env : WaitEnv) (timeout : Double) (n m : Nat)
    (hn : Pending env timeout n) (hm : Pending env timeout m)
    (hcn : (env.waitpid n).ret ≠ 0 ∨ elapsed_reached env timeout n)
    (hcm : (env.waitpid m).ret ≠ 0 ∨ elapsed_reached env timeout m) : n = m := by
  rcases Nat.lt_trichotomy n m with h | h | h
  · have := hm n h
    rcases hcn with h1 | h1
    · exact absurd this.1 h1
    · exact absurd h1 this.2
  · exact h
  · have := hn m h
    rcases hcm with h1 | h1
    · exact absurd this.1 h1
    · exact absurd h1 this.2

/-! ## Decoding -/

theorem decode_failed (s : WaitState) :
    decode (-1) s = { s with out := { s.out with wait_failed := 1 } } := by
  simp [decode]

theorem decode_exited (r : Int) (s : WaitState) (hr : r ≠ -1)
    (he : WIFEXITED s.wait_status = true) :
    decode r s = { s with out := { s.out with
        exit_status_available := 1
        exit_status := uint8_cast (WEXITSTATUS s.wait_status) } } := by
  simp [decode, hr, he]

theorem decode_signaled (r : Int) (s : WaitState) (hr : r ≠ -1)
    (he : WIFEXITED s.wait_status = false) (hs : WIFSIGNALED s.wait_status = true) :
    decode r s = { s with out := { s.out with
        stop_signal_available := 1
        stop_signal := uint8_cast (WSTOPSIG s.wait_status) } } := by
  simp [decode, hr, he, hs]

theorem decode_is_timeout (r : Int) (s : WaitState) :
    (decode r s).out.is_timeout = s.out.is_timeout := by
  unfold decode
  split
  · rfl
  · split
    · rfl
    · split <;> rfl

theorem decode_calls (r : Int) (s : WaitState) : (decode r s).calls = s.calls := by
  unfold decode
  split
  · rfl
  · split
    · rfl
    · split <;> rfl

theorem count_waitpid_append (xs ys : List WaitCall) :
    count_waitpid (xs ++ ys) = count_waitpid xs + count_waitpid ys := by
  induction xs with
  | nil => simp [count_waitpid]
  | cons x xs ih =>
    cases x with
    | waitpid p o => simp [count_waitpid, ih]; omega
    | clock_gettime c => simp [count_waitpid, ih]

theorem count_waitpid_iter_calls (pid : Int) (n : Nat) :
    count_waitpid (iter_calls pid n) = n := by
  induction n with
  | zero => rfl
  | succ k ih => simp [iter_calls, count_waitpid_append, ih, count_waitpid]

theorem mem_iter_calls (pid : Int) (n : Nat) (p o : Int)
    (h : WaitCall.waitpid p o ∈ iter_calls pid n) : p = pid_t_cast pid ∧ o = WNOHANG := by
  induction n with
  | zero => simp [iter_calls] at h
  | succ k ih =>
    simp only [iter_calls, List.mem_append, List.mem_cons, List.mem_singleton] at h
    rcases h with h | h | h | h
    · exact ih h
    · injection h with h1 h2; exact ⟨h1, h2⟩
    · cases h
    · simp at h

theorem status_after_succ (env : WaitEnv) (ws0 : Nat) (n st : Nat)
    (h : (env.waitpid n).status = some st) : status_after env ws0 (n + 1) = st := by
  simp [status_after, h]

/-- The final state for a child that exited normally, when the tested call of
`waitpid` returns a value other than -1. -/
theorem wait_decisive_exited (env : WaitEnv) (fuel : Nat) (pid : Int) (timeout : Double)
    (out0 : WaitResult) (ws0 : Nat) (n st : Nat)
    (hd : Decisive env timeout n) (hf : Double.lt timeout Double.zero = true ∨ n < fuel)
    (hret : (env.waitpid n).ret ≠ -1) (hst : (env.waitpid n).status = some st)
    (hex : st &&& 0x7f = 0) :
    fixsubprocess_wait_subprocess env fuel pid timeout out0 ws0
      = some { out := { is_timeout := 0
                        wait_failed := 0
                        exit_status := (st >>> 8) &&& 0xff
                        exit_status_available := 1
                        stop_signal := out0.stop_signal
                        stop_signal_available := 0 }
               wait_status := st
               calls := decisive_calls pid timeout n
               nwait := n + 1
               nclock := if Double.lt timeout Double.zero then 0 else n + 1 } := by
  have hw : WIFEXITED st = true := by simp [WIFEXITED, WTERMSIG, hex]
  have hlt : (st >>> 8) &&& 0xff < 256 := by
    rw [← WEXITSTATUS_eq_shift_and]; exact WEXITSTATUS_lt st
  rw [wait_decisive env fuel pid timeout out0 ws0 n hd hf,
    decode_exited _ _ hret (by simpa [status_after_succ env ws0 n st hst] using hw)]
  simp [status_after_succ env ws0 n st hst, out_init, uint8_cast, WEXITSTATUS_eq_shift_and,
    Nat.mod_eq_of_lt hlt]

/-- The function on a scripted clock, evaluated: with `start` read at 0.2 s and a
timeout of 0.5 s, the reading at 0.7 s does not end the loop (one poll is not
enough), the reading at 0.700000001 s does. -/
theorem wait_half_second_example :
    fixsubprocess_wait_subprocess
        (timed_env [] [{ tv_sec := 0, tv_nsec := 200000000 },
          { tv_sec := 0, tv_nsec := 700000000 }, { tv_sec := 0, tv_nsec := 700000001 }])
        1 1234 half_second stale_out 127 = none ∧
    (fixsubprocess_wait_subprocess
        (timed_env [] [{ tv_sec := 0, tv_nsec := 200000000 },
          { tv_sec := 0, tv_nsec := 700000000 }, { tv_sec := 0, tv_nsec := 700000001 }])
        2 1234 half_second stale_out 127).map WaitState.out
      = some { is_timeout := 1
               wait_failed := 0
               exit_status := 7
               exit_status_available := 0
               stop_signal := 7
               stop_signal_available := 0 } := by
  decide

/-! ## The claims about the waiter -/

/-- C1: whatever the pid and the timeout, when the call of `waitpid` whose return
value is tested (the single blocking call, or the first poll that returns
non-zero) returns a value other than -1 and stores a status whose low 7 bits
are 0, the function returns with `is_timeout = 0`, `wait_failed = 0`,
`exit_status_available = 1`, `exit_status = (status >> 8) & 0xff` and
`stop_signal_available = 0`; `stop_signal` is left as it was. -/
theorem wait_exited_normally (env : WaitEnv) (fuel : Nat) (pid : Int) (timeout : Double)
    (out0 : WaitResult) (ws0 : Nat) (n st : Nat)
    (hd : Decisive env timeout n) (hf : Double.lt timeout Double.zero = true ∨ n < fuel)
    (hret : (env.waitpid n).ret ≠ -1) (hst : (env.waitpid n).status = some st)
    (hex : st &&& 0x7f = 0) :
    (fixsubprocess_wait_subprocess env fuel pid timeout out0 ws0).map WaitState.out
      = some { is_timeout := 0
               wait_failed := 0
               exit_status := (st >>> 8) &&& 0xff
               exit_status_available := 1
               stop_signal := out0.stop_signal
               stop_signal_available := 0 } := by
  rw [wait_decisive_exited env fuel pid timeout out0 ws0 n st hd hf hret hst hex]
  rfl

/-- Witness of C1: a child that exits with 42 (status `0x2a00`), waited for
without timeout. -/
theorem wait_exited_normally_witness :
    (fixsubprocess_wait_subprocess (script_env [{ ret := 1234, status := some 0x2a00 }])
        0 1234 (Double.of_int (-1)) stale_out 0).map WaitState.out
      = some { is_timeout := 0
               wait_failed := 0
               exit_status := 42
               exit_status_available := 1
               stop_signal := 7
               stop_signal_available := 0 } :=
  wait_exited_normally (script_env [{ ret := 1234, status := some 0x2a00 }])
    0 1234 (Double.of_int (-1)) stale_out 0 0 0x2a00
    ⟨by decide, by decide⟩ (Or.inl (by decide)) (by decide) rfl (by decide)

/-- What the code does for a child terminated by a signal: whenever the tested
call of `waitpid` returns a value other than -1 with a status for which
`WIFSIGNALED` holds, `stop_signal` is `(uint8_t)WSTOPSIG(status)`, that is bits
8 to 15 of the status, and not `WTERMSIG(status)`. -/
theorem wait_signaled_reports_wstopsig (env : WaitEnv) (fuel : Nat) (pid : Int)
    (timeout : Double) (out0 : WaitResult) (ws0 : Nat) (n st : Nat)
    (hd : Decisive env timeout n) (hf : Double.lt timeout Double.zero = true ∨ n < fuel)
    (hret : (env.waitpid n).ret ≠ -1) (hst : (env.waitpid n).status = some st)
    (hsig : WIFSIGNALED st = true) :
    (fixsubprocess_wait_subprocess env fuel pid timeout out0 ws0).map WaitState.out
      = some { is_timeout := 0
               wait_failed := 0
               exit_status := out0.exit_status
               exit_status_available := 0
               stop_signal := (st >>> 8) &&& 0xff
               stop_signal_available := 1 } := by
  have hne : WIFEXITED st = false := by
    have h1 := (WIFSIGNALED_iff st).mp hsig
    cases h : WIFEXITED st with
    | false => rfl
    | true => have h2 := (WIFEXITED_iff st).mp h; omega
  have hlt : (st >>> 8) &&& 0xff < 256 := by
    rw [← WEXITSTATUS_eq_shift_and]; exact WEXITSTATUS_lt st
  rw [wait_decisive env fuel pid timeout out0 ws0 n hd hf,
    decode_signaled _ _ hret (by simpa [status_after_succ env ws0 n st hst] using hne)
      (by simpa [status_after_succ env ws0 n st hst] using hsig)]
  simp [status_after_succ env ws0 n st hst, out_init, uint8_cast, WSTOPSIG,
    WEXITSTATUS_eq_shift_and, Nat.mod_eq_of_lt hlt]

/-- C2, at the failing input: a child killed by signal 9 (status 9, for which
`WIFSIGNALED` holds and `WTERMSIG` is 9), waited for without timeout.  The
function sets `stop_signal_available = 1` but `stop_signal = 0`, not 9. -/
theorem wait_killed_by_9_stop_signal :
    WIFSIGNALED 9 = true ∧ WTERMSIG 9 = 9 ∧
    (fixsubprocess_wait_subprocess (script_env [{ ret := 1234, status := some 9 }])
        0 1234 (Double.of_int (-1)) stale_out 0).map WaitState.out
      = some { is_timeout := 0
               wait_failed := 0
               exit_status := 7
               exit_status_available := 0
               stop_signal := 0
               stop_signal_available := 1 } := by
  refine ⟨by decide, by decide, ?_⟩
  exact wait_signaled_reports_wstopsig (script_env [{ ret := 1234, status := some 9 }])
    0 1234 (Double.of_int (-1)) stale_out 0 0 9
    ⟨by decide, by decide⟩ (Or.inl (by decide)) (by decide) rfl (by decide)

/-- C3, at the failing input: `timeout = 0`, the first poll returns 0 and stores
nothing, the clock is monotonic, and the uninitialised `wait_status` holds 0.
The function returns with `is_timeout = 1` and `exit_status_available = 1`:
two flags are set. -/
theorem wait_timeout_decodes_stale_status :
    (fixsubprocess_wait_subprocess (script_env []) 1 1234 Double.zero stale_out 0).map
        WaitState.out
      = some { is_timeout := 1
               wait_failed := 0
               exit_status := 0
               exit_status_available := 1
               stop_signal := 7
               stop_signal_available := 0 } ∧
    (fixsubprocess_wait_subprocess (script_env []) 1 1234 Double.zero stale_out 0).map
      (fun r => flags_set r.out) = some 2 := by
  have h := wait_timed_out (script_env []) 1 1234 Double.zero stale_out 0 0 rfl
    (fun m hm => absurd hm (Nat.not_lt_zero m)) rfl (by decide) (by decide)
  rw [h]
  constructor <;> decide

/-- C4: whatever the pid and the timeout, when a call of `waitpid` that the
function makes (the blocking call, or a poll made while the loop was still
running) returns -1, the function returns right after that call: the trace ends
with it, and `out` holds `wait_failed = 1`, `is_timeout = 0`,
`exit_status_available = 0`, `stop_signal_available = 0`, with `exit_status`
and `stop_signal` untouched (the status is not decoded).  In particular a first
call that returns -1, as on an already reaped pid, gives WaitFailed after one
call, for every timeout. -/
theorem wait_failed_on_error (env : WaitEnv) (pid : Int) (timeout : Double)
    (out0 : WaitResult) (ws0 : Nat) :
    (∀ n fuel, Reaches env timeout n → (env.waitpid n).ret = -1 →
      (Double.lt timeout Double.zero = true ∨ n < fuel) →
      fixsubprocess_wait_subprocess env fuel pid timeout out0 ws0
        = some { out := { is_timeout := 0
                          wait_failed := 1
                          exit_status := out0.exit_status
                          exit_status_available := 0
                          stop_signal := out0.stop_signal
                          stop_signal_available := 0 }
                 wait_status := status_after env ws0 (n + 1)
                 calls := decisive_calls pid timeout n
                 nwait := n + 1
                 nclock := if Double.lt timeout Double.zero then 0 else n + 1 }) ∧
    ((env.waitpid 0).ret = -1 → ∀ fuel, 0 < fuel →
      (fixsubprocess_wait_subprocess env fuel pid timeout out0 ws0).map
          (fun r => (r.out, count_waitpid r.calls))
        = some ({ is_timeout := 0
                  wait_failed := 1
                  exit_status := out0.exit_status
                  exit_status_available := 0
                  stop_signal := out0.stop_signal
                  stop_signal_available := 0 }, 1)) := by
  have main : ∀ n fuel, Reaches env timeout n → (env.waitpid n).ret = -1 →
      (Double.lt timeout Double.zero = true ∨ n < fuel) →
      fixsubprocess_wait_subprocess env fuel pid timeout out0 ws0
        = some { out := { is_timeout := 0
                          wait_failed := 1
                          exit_status := out0.exit_status
                          exit_status_available := 0
                          stop_signal := out0.stop_signal
                          stop_signal_available := 0 }
                 wait_status := status_after env ws0 (n + 1)
                 calls := decisive_calls pid timeout n
                 nwait := n + 1
                 nclock := if Double.lt timeout Double.zero then 0 else n + 1 } := by
    intro n fuel hn hret hf
    have hd : Decisive env timeout n := ⟨hn, fun _ => by rw [hret]; decide⟩
    rw [wait_decisive env fuel pid timeout out0 ws0 n hd hf, hret, decode_failed]
    simp [out_init]
  refine ⟨main, ?_⟩
  intro hret fuel hfuel
  have h0 : Reaches env timeout 0 := by
    unfold Reaches
    split
    · rfl
    · exact fun m hm => absurd hm (Nat.not_lt_zero m)
  rw [main 0 fuel h0 hret (Or.inr hfuel)]
  by_cases ht : Double.lt timeout Double.zero = true <;>
    simp [decisive_calls, ht, count_waitpid, iter_calls]

/-- Witness of C4: the pid was already reaped, so the first poll returns -1;
with a timeout of 5 seconds the function reports WaitFailed after one poll. -/
theorem wait_failed_on_error_witness :
    (fixsubprocess_wait_subprocess (script_env [{ ret := -1, status := none }])
        1 1234 (Double.of_int 5) stale_out 0).map (fun r => (r.out, count_waitpid r.calls))
      = some ({ is_timeout := 0
                wait_failed := 1
                exit_status := 7
                exit_status_available := 0
                stop_signal := 7
                stop_signal_available := 0 }, 1) :=
  (wait_failed_on_error (script_env [{ ret := -1, status := none }]) 1234 (Double.of_int 5)
    stale_out 0).2 rfl 1 (by decide)

/-- C6: for every pid and every `timeout < 0.0` the function returns (whatever the
fuel) after exactly one system call, `waitpid((pid_t)pid, &wait_status, 0)`: a
blocking wait on the given pid, which the cast leaves unchanged whenever it is
a value of `pid_t`, and no reading of the clock.  `is_timeout` is 0 whatever
that call returns; and when the call returns the child with the status 0 of a
child that exited with 0, the result is ExitedWithStatus(0). -/
theorem wait_blocking_single_call (env : WaitEnv) (fuel : Nat) (pid : Int) (timeout : Double)
    (out0 : WaitResult) (ws0 : Nat) (ht : Double.lt timeout Double.zero = true) :
    (fixsubprocess_wait_subprocess env fuel pid timeout out0 ws0).map
        (fun r => (r.calls, r.out.is_timeout))
      = some ([WaitCall.waitpid (pid_t_cast pid) 0], 0) ∧
    (-2 ^ 31 ≤ pid → pid < 2 ^ 31 → pid_t_cast pid = pid) ∧
    ((env.waitpid 0).ret ≠ -1 → (env.waitpid 0).status = some 0 →
      (fixsubprocess_wait_subprocess env fuel pid timeout out0 ws0).map WaitState.out
        = some { is_timeout := 0
                 wait_failed := 0
                 exit_status := 0
                 exit_status_available := 1
                 stop_signal := out0.stop_signal
                 stop_signal_available := 0 }) := by
  rw [wait_blocking env fuel pid timeout out0 ws0 ht]
  refine ⟨?_, ?_, ?_⟩
  · simp only [Option.map_some', decode_calls, decode_is_timeout]
    rfl
  · intro h1 h2
    unfold pid_t_cast
    omega
  · intro hret hst
    have hw : WIFEXITED (status_after env ws0 1) = true := by
      simp only [status_after, hst, Option.getD_some]; decide
    rw [decode_exited _ _ hret hw]
    simp only [status_after, hst, out_init, Option.map_some', Option.getD_some]
    rfl

/-- Witness of C6: `timeout = -1` and a child that exits with 0. -/
theorem wait_blocking_single_call_witness :
    (fixsubprocess_wait_subprocess (script_env [{ ret := 1234, status := some 0 }])
        0 1234 (Double.of_int (-1)) stale_out 0).map (fun r => (r.calls, r.out.is_timeout))
      = some ([WaitCall.waitpid (pid_t_cast 1234) 0], 0) ∧
    pid_t_cast 1234 = 1234 ∧
    (fixsubprocess_wait_subprocess (script_env [{ ret := 1234, status := some 0 }])
        0 1234 (Double.of_int (-1)) stale_out 0).map WaitState.out
      = some { is_timeout := 0
               wait_failed := 0
               exit_status := 0
               exit_status_available := 1
               stop_signal := 7
               stop_signal_available := 0 } :=
  have h := wait_blocking_single_call (script_env [{ ret := 1234, status := some 0 }])
    0 1234 (Double.of_int (-1)) stale_out 0 (by decide)
  ⟨h.1, h.2.1 (by decide) (by decide), h.2.2 (by decide) rfl⟩

/-- C5: for every `timeout >= 0.0`, every script of poll results and every clock,
the test `now - start >= timeout` being the binary64 one that `elapsed_reached`
spells out:
(1) every call of `waitpid` in the trace is `waitpid((pid_t)pid, _, WNOHANG)`;
(2) if poll `n` is the first that returns non-zero and no earlier poll was
followed by a clock reading with `now - start >= timeout`, the function returns
after exactly `n + 1` polls with `is_timeout = 0`;
(3) if poll `n` returns 0 and is the first whose following clock reading has
`now - start >= timeout`, no earlier poll having returned non-zero, the function
returns after exactly `n + 1` polls with `is_timeout = 1`;
(4) as long as neither happens the loop goes on (the fuel runs out);
(5) `is_timeout = 1` exactly in case (3);
(6) with `timeout = 0` and a monotonic clock (the readings `start` and the one
after the first poll are sane, and the second is not earlier than the first), a
first poll that returns 0 gives `is_timeout = 1` after exactly one poll;
(6b) the same holds for any two readings whose times, as the code computes
them, are finite with the second not below the first;
(7) with `timeout = 0`, a first poll that returns the child, exited normally,
gives its exit status with `is_timeout = 0`. -/
theorem wait_polling_rule (env : WaitEnv) (pid : Int) (timeout : Double)
    (out0 : WaitResult) (ws0 : Nat) (ht : Double.le Double.zero timeout = true) :
    (∀ fuel r, fixsubprocess_wait_subprocess env fuel pid timeout out0 ws0 = some r →
      ∀ p o, WaitCall.waitpid p o ∈ r.calls → p = pid_t_cast pid ∧ o = WNOHANG) ∧
    (∀ n fuel, Pending env timeout n → (env.waitpid n).ret ≠ 0 → n < fuel →
      (fixsubprocess_wait_subprocess env fuel pid timeout out0 ws0).map
          (fun r => (r.out.is_timeout, count_waitpid r.calls, r.calls))
        = some (0, n + 1,
            WaitCall.clock_gettime CLOCK_MONOTONIC :: iter_calls pid n ++
              [WaitCall.waitpid (pid_t_cast pid) WNOHANG])) ∧
    (∀ n fuel, Pending env timeout n → (env.waitpid n).ret = 0 →
      elapsed_reached env timeout n → n < fuel →
      (fixsubprocess_wait_subprocess env fuel pid timeout out0 ws0).map
          (fun r => (r.out.is_timeout, count_waitpid r.calls, r.calls))
        = some (1, n + 1,
            WaitCall.clock_gettime CLOCK_MONOTONIC :: iter_calls pid (n + 1))) ∧
    (∀ fuel, Pending env timeout fuel →
      fixsubprocess_wait_subprocess env fuel pid timeout out0 ws0 = none) ∧
    (∀ fuel r, fixsubprocess_wait_subprocess env fuel pid timeout out0 ws0 = some r →
      (r.out.is_timeout = 1 ↔
        ∃ n, n < fuel ∧ Pending env timeout n ∧ (env.waitpid n).ret = 0 ∧
          elapsed_reached env timeout n)) ∧
    (Double.le timeout Double.zero = true →
      sane_reading (env.clock 0) → sane_reading (env.clock 1) →
      timespec_le (env.clock 0) (env.clock 1) →
      (env.waitpid 0).ret = 0 → ∀ fuel, 0 < fuel →
      (fixsubprocess_wait_subprocess env fuel pid timeout out0 ws0).map
          (fun r => (r.out.is_timeout, count_waitpid r.calls)) = some (1, 1)) ∧
    (Double.le timeout Double.zero = true →
      Double.is_finite (reading_seconds (env.clock 0)) = true →
      Double.is_finite (reading_seconds (env.clock 1)) = true →
      Double.le (reading_seconds (env.clock 0)) (reading_seconds (env.clock 1)) = true →
      (env.waitpid 0).ret = 0 → ∀ fuel, 0 < fuel →
      (fixsubprocess_wait_subprocess env fuel pid timeout out0 ws0).map
          (fun r => (r.out.is_timeout, count_waitpid r.calls)) = some (1, 1)) ∧
    (Double.le timeout Double.zero = true → ∀ st,
      (env.waitpid 0).ret ≠ 0 → (env.waitpid 0).ret ≠ -1 →
      (env.waitpid 0).status = some st → st &&& 0x7f = 0 → ∀ fuel, 0 < fuel →
      (fixsubprocess_wait_subprocess env fuel pid timeout out0 ws0).map
          (fun r => (r.out, count_waitpid r.calls))
        = some ({ is_timeout := 0
                  wait_failed := 0
                  exit_status := (st >>> 8) &&& 0xff
                  exit_status_available := 1
                  stop_signal := out0.stop_signal
                  stop_signal_available := 0 }, 1)) := by
  have hnt : Double.lt timeout Double.zero = false := Double.lt_zero_eq_false timeout ht
  have hpoll : ∀ n fuel, Pending env timeout n → (env.waitpid n).ret ≠ 0 → n < fuel →
      fixsubprocess_wait_subprocess env fuel pid timeout out0 ws0
        = some (decode (env.waitpid n).ret
            { out := out_init out0
              wait_status := status_after env ws0 (n + 1)
              calls := WaitCall.clock_gettime CLOCK_MONOTONIC :: iter_calls pid n ++
                [WaitCall.waitpid (pid_t_cast pid) WNOHANG]
              nwait := n + 1
              nclock := n + 1 }) := by
    intro n fuel hp hr hf
    have hd : Decisive env timeout n := ⟨by simpa [Reaches, hnt] using hp, fun _ => hr⟩
    rw [wait_decisive env fuel pid timeout out0 ws0 n hd (Or.inr hf)]
    simp [decisive_calls, hnt]
  have hcount : ∀ n, count_waitpid (WaitCall.clock_gettime CLOCK_MONOTONIC ::
      iter_calls pid n ++ [WaitCall.waitpid (pid_t_cast pid) WNOHANG]) = n + 1 := by
    intro n
    rw [List.cons_append]
    simp [count_waitpid, count_waitpid_append, count_waitpid_iter_calls]
  have hcount2 : ∀ n, count_waitpid (WaitCall.clock_gettime CLOCK_MONOTONIC ::
      iter_calls pid n) = n := by
    intro n
    simp [count_waitpid, count_waitpid_iter_calls]
  have h2 : ∀ n fuel, Pending env timeout n → (env.waitpid n).ret ≠ 0 → n < fuel →
      (fixsubprocess_wait_subprocess env fuel pid timeout out0 ws0).map
          (fun r => (r.out.is_timeout, count_waitpid r.calls, r.calls))
        = some (0, n + 1,
            WaitCall.clock_gettime CLOCK_MONOTONIC :: iter_calls pid n ++
              [WaitCall.waitpid (pid_t_cast pid) WNOHANG]) := by
    intro n fuel hp hr hf
    rw [hpoll n fuel hp hr hf]
    simp only [Option.map_some', decode_is_timeout, decode_calls, hcount]
    rfl
  have h3 : ∀ n fuel, Pending env timeout n → (env.waitpid n).ret = 0 →
      elapsed_reached env timeout n → n < fuel →
      (fixsubprocess_wait_subprocess env fuel pid timeout out0 ws0).map
          (fun r => (r.out.is_timeout, count_waitpid r.calls, r.calls))
        = some (1, n + 1,
            WaitCall.clock_gettime CLOCK_MONOTONIC :: iter_calls pid (n + 1)) := by
    intro n fuel hp hr he hf
    rw [wait_timed_out env fuel pid timeout out0 ws0 n hnt hp hr he hf]
    simp only [Option.map_some', decode_is_timeout, decode_calls, hcount2]
  have h4 : ∀ fuel, Pending env timeout fuel →
      fixsubprocess_wait_subprocess env fuel pid timeout out0 ws0 = none :=
    fun fuel hp => wait_out_of_fuel env fuel pid timeout out0 ws0 hnt hp
  have h6 : Double.le timeout Double.zero = true →
      Double.is_finite (reading_seconds (env.clock 0)) = true →
      Double.is_finite (reading_seconds (env.clock 1)) = true →
      Double.le (reading_seconds (env.clock 0)) (reading_seconds (env.clock 1)) = true →
      (env.waitpid 0).ret = 0 → ∀ fuel, 0 < fuel →
      (fixsubprocess_wait_subprocess env fuel pid timeout out0 ws0).map
          (fun r => (r.out.is_timeout, count_waitpid r.calls)) = some (1, 1) := by
    intro h0 hfin0 hfin1 hclk hr fuel hf
    have hp : Pending env timeout 0 := fun m hm => absurd hm (Nat.not_lt_zero m)
    have he : elapsed_reached env timeout 0 :=
      Double.le_sub_of_le timeout _ _ hfin1 hfin0 hclk h0
    rw [wait_timed_out env fuel pid timeout out0 ws0 0 hnt hp hr he hf]
    simp only [Option.map_some', decode_is_timeout, decode_calls, hcount2]
  refine ⟨?_, h2, h3, h4, ?_, ?_, h6, ?_⟩
  · intro fuel r hr p o hmem
    rcases pending_or_left env timeout fuel with hp | ⟨n, hn, hp, hc | ⟨hc, he⟩⟩
    · rw [h4 fuel hp] at hr; cases hr
    · rw [hpoll n fuel hp hc hn] at hr
      injection hr with hr
      subst hr
      rw [decode_calls] at hmem
      simp only [List.cons_append, List.mem_cons, List.mem_append, List.mem_singleton,
        List.not_mem_nil, or_false] at hmem
      rcases hmem with h | h | h
      · cases h
      · exact mem_iter_calls pid n p o h
      · injection h with e1 e2; exact ⟨e1, e2⟩
    · rw [wait_timed_out env fuel pid timeout out0 ws0 n hnt hp hc he hn] at hr
      injection hr with hr
      subst hr
      rw [decode_calls] at hmem
      simp only [List.mem_cons] at hmem
      rcases hmem with h | h
      · cases h
      · exact mem_iter_calls pid (n + 1) p o h
  · intro fuel r hr
    rcases pending_or_left env timeout fuel with hp | ⟨n, hn, hp, hc | ⟨hc, he⟩⟩
    · rw [h4 fuel hp] at hr; cases hr
    · rw [hpoll n fuel hp hc hn] at hr
      injection hr with hr
      subst hr
      rw [decode_is_timeout]
      constructor
      · intro h; simp [out_init] at h
      · rintro ⟨m, _, hpm, hrm, hem⟩
        have := pending_unique env timeout n m hp hpm (Or.inl hc) (Or.inr hem)
        subst this
        exact absurd hrm hc
    · rw [wait_timed_out env fuel pid timeout out0 ws0 n hnt hp hc he hn] at hr
      injection hr with hr
      subst hr
      rw [decode_is_timeout]
      exact ⟨fun _ => ⟨n, hn, hp, hc, he⟩, fun _ => rfl⟩
  · intro h0 hs0 hs1 hle hr fuel hf
    obtain ⟨hfin0, hfin1, hclk⟩ :=
      reading_seconds_mono (env.clock 0) (env.clock 1) hs0 hs1 hle
    exact h6 h0 hfin0 hfin1 hclk hr fuel hf
  · intro _ st hr hm1 hst hex fuel hf
    have hp : Pending env timeout 0 := fun m hm => absurd hm (Nat.not_lt_zero m)
    have hd : Decisive env timeout 0 := ⟨by simpa [Reaches, hnt] using hp, fun _ => hr⟩
    rw [wait_decisive_exited env fuel pid timeout out0 ws0 0 st hd (Or.inr hf) hm1 hst hex]
    simp [decisive_calls, hnt, iter_calls, count_waitpid]

/-- Witness of C5: a timeout of 0.5 seconds, polls that all return 0, `start`
read at 0.2 s and the next readings at 0.7 s and 0.700000001 s.  In binary64
`0.7 - 0.2` is `0.49999999999999994`, short of the timeout, so the loop is left
after the second poll; and with `start` read at `2^53` s, a reading at
`2^53 + 1` s is converted to `2^53`, so a timeout of 1 s is reached only by the
reading at `2^53 + 2` s; and with a timeout of 0 and the readings 5.999999999 s
and 6 s of a monotonic clock, one poll is made. -/
theorem wait_polling_rule_witness :
    (fixsubprocess_wait_subprocess
        (timed_env [] [{ tv_sec := 0, tv_nsec := 200000000 },
          { tv_sec := 0, tv_nsec := 700000000 }, { tv_sec := 0, tv_nsec := 700000001 }])
        2 1234 half_second stale_out 0).map
        (fun r => (r.out.is_timeout, count_waitpid r.calls, r.calls))
      = some (1, 2,
          [WaitCall.clock_gettime CLOCK_MONOTONIC,
           WaitCall.waitpid (pid_t_cast 1234) WNOHANG,
           WaitCall.clock_gettime CLOCK_MONOTONIC,
           WaitCall.waitpid (pid_t_cast 1234) WNOHANG,
           WaitCall.clock_gettime CLOCK_MONOTONIC]) ∧
    (fixsubprocess_wait_subprocess
        (timed_env [] [{ tv_sec := 2 ^ 53, tv_nsec := 0 },
          { tv_sec := 2 ^ 53 + 1, tv_nsec := 0 }, { tv_sec := 2 ^ 53 + 2, tv_nsec := 0 }])
        2 1234 (Double.of_int 1) stale_out 0).map
        (fun r => (r.out.is_timeout, count_waitpid r.calls)) = some (1, 2) ∧
    (fixsubprocess_wait_subprocess
        (timed_env [] [{ tv_sec := 5, tv_nsec := 999999999 }, { tv_sec := 6, tv_nsec := 0 }])
        1 1234 Double.zero stale_out 0).map
        (fun r => (r.out.is_timeout, count_waitpid r.calls)) = some (1, 1) :=
  ⟨(wait_polling_rule
      (timed_env [] [{ tv_sec := 0, tv_nsec := 200000000 },
        { tv_sec := 0, tv_nsec := 700000000 }, { tv_sec := 0, tv_nsec := 700000001 }])
      1234 half_second stale_out 0 (by decide)).2.2.1 1 2 (by decide) rfl (by decide)
      (by decide),
    by
      have h := (wait_polling_rule
        (timed_env [] [{ tv_sec := 2 ^ 53, tv_nsec := 0 },
          { tv_sec := 2 ^ 53 + 1, tv_nsec := 0 }, { tv_sec := 2 ^ 53 + 2, tv_nsec := 0 }])
        1234 (Double.of_int 1) stale_out 0 (by decide)).2.2.1 1 2 (by decide) rfl
        (by decide) (by decide)
      rw [Option.map_eq_some'] at h ⊢
      obtain ⟨r, hr, he⟩ := h
      exact ⟨r, hr, by
        simp only [Prod.mk.injEq] at he ⊢
        exact ⟨he.1, he.2.1⟩⟩,
    (wait_polling_rule
      (timed_env [] [{ tv_sec := 5, tv_nsec := 999999999 }, { tv_sec := 6, tv_nsec := 0 }])
      1234 Double.zero stale_out 0 (by decide)).2.2.2.2.2.1 (by decide) (by decide)
      (by decide) (by decide) rfl 1 (by decide)⟩

/-! ## The spawner -/

theorem range_three : List.range 3 = [0, 1, 2] := rfl

theorem length_pipe_message : "Failed to create pipe.".length = 22 := by decide

theorem length_fork_message : "Failed to create child process.".length = 31 := by decide

/-- The state after the three pipes were created. -/
theorem pipe_loop_all_ok (env : SpawnEnv) (s : SpawnState) (a0 b0 a1 b1 a2 b2 : Int)
    (h0 : env.pipe 0 = some (a0, b0)) (h1 : env.pipe 1 = some (a1, b1))
    (h2 : env.pipe 2 = some (a2, b2)) :
    pipe_loop env 3 0 s = Except.ok
      { s with
        pipes := fun k => if k = 2 then (a2, b2) else if k = 1 then (a1, b1)
          else if k = 0 then (a0, b0) else s.pipes k
        fds := fd_pipe (fd_pipe (fd_pipe s.fds 0 a0 b0) 1 a1 b1) 2 a2 b2
        calls := s.calls ++ [SpawnCall.pipe 0, SpawnCall.pipe 1, SpawnCall.pipe 2] } := by
  simp [pipe_loop, sys_pipe, h0, h1, h2]

theorem fd_dup2_of_open (t : FdTable) (oldfd newfd : Int) (f : FileObj)
    (h : t oldfd = some f) (hne : oldfd ≠ newfd) :
    fd_dup2 t oldfd newfd = fun k => if k = newfd then some f else t k := by
  simp [fd_dup2, h, hne]

/-- The child path when none of the six pipe descriptors is 0, 1 or 2: at the
call of `execvp`, made with `program_path` and `argv` as given, descriptors 0,
1 and 2 refer to the read end of the in pipe and the write ends of the out and
err pipes, and the six raw descriptors are closed. -/
theorem spawn_child_redirects (env : SpawnEnv) (program_path : String) (argv : List String)
    (fds0 : FdTable) (pipes0 : Nat → Int × Int) (out_streams0 : Nat → Option FILE)
    (out_pid0 : Int) (a0 b0 a1 b1 a2 b2 : Int)
    (h0 : env.pipe 0 = some (a0, b0)) (h1 : env.pipe 1 = some (a1, b1))
    (h2 : env.pipe 2 = some (a2, b2)) (hfork : env.fork = 0) (hexec : env.execvp_ok = true)
    (hnd : [a0, b0, a1, b1, a2, b2].Nodup)
    (hlow : ∀ fd, fd ∈ [a0, b0, a1, b1, a2, b2] → 3 ≤ fd) :
    report (fixsubprocess_fork_execvp env program_path argv fds0 pipes0 out_streams0 out_pid0)
      = { outcome := Outcome.image_replaced
          calls := [SpawnCall.pipe 0, SpawnCall.pipe 1, SpawnCall.pipe 2, SpawnCall.fork,
            SpawnCall.dup2 a0 0, SpawnCall.dup2 b1 1, SpawnCall.dup2 b2 2,
            SpawnCall.close a0, SpawnCall.close b0, SpawnCall.close a1,
            SpawnCall.close b1, SpawnCall.close a2, SpawnCall.close b2,
            SpawnCall.execvp program_path argv]
          out_error := none
          out_pid := out_pid0
          stream0 := out_streams0 0
          stream1 := out_streams0 1
          stream2 := out_streams0 2 } ∧
    (fixsubprocess_fork_execvp env program_path argv fds0 pipes0 out_streams0
      out_pid0).1.fds 0 = some (FileObj.pipe_read 0) ∧
    (fixsubprocess_fork_execvp env program_path argv fds0 pipes0 out_streams0
      out_pid0).1.fds 1 = some (FileObj.pipe_write 1) ∧
    (fixsubprocess_fork_execvp env program_path argv fds0 pipes0 out_streams0
      out_pid0).1.fds 2 = some (FileObj.pipe_write 2) ∧
    (∀ fd, fd ∈ [a0, b0, a1, b1, a2, b2] →
      (fixsubprocess_fork_execvp env program_path argv fds0 pipes0 out_streams0
        out_pid0).1.fds fd = none) := by
  simp only [List.nodup_cons, List.mem_cons, List.mem_singleton, not_or, List.not_mem_nil,
    not_false_eq_true, List.nodup_nil, and_true] at hnd
  obtain ⟨⟨h01, h02, h03, h04, h05⟩, ⟨h12, h13, h14, h15⟩, ⟨h23, h24, h25⟩,
    ⟨h34, h35⟩, h45⟩ := hnd
  have l0 := hlow a0 (by simp)
  have l1 := hlow b0 (by simp)
  have l2 := hlow a1 (by simp)
  have l3 := hlow b1 (by simp)
  have l4 := hlow a2 (by simp)
  have l5 := hlow b2 (by simp)
  have n00 : a0 ≠ 0 := by omega
  have n01 : a0 ≠ 1 := by omega
  have n02 : a0 ≠ 2 := by omega
  have n10 : b0 ≠ 0 := by omega
  have n11 : b0 ≠ 1 := by omega
  have n12 : b0 ≠ 2 := by omega
  have n20 : a1 ≠ 0 := by omega
  have n21 : a1 ≠ 1 := by omega
  have n22 : a1 ≠ 2 := by omega
  have n30 : b1 ≠ 0 := by omega
  have n31 : b1 ≠ 1 := by omega
  have n32 : b1 ≠ 2 := by omega
  have n40 : a2 ≠ 0 := by omega
  have n41 : a2 ≠ 1 := by omega
  have n42 : a2 ≠ 2 := by omega
  have n50 : b2 ≠ 0 := by omega
  have n51 : b2 ≠ 1 := by omega
  have n52 : b2 ≠ 2 := by omega
  have e1 : fd_pipe (fd_pipe (fd_pipe fds0 0 a0 b0) 1 a1 b1) 2 a2 b2 a0
      = some (FileObj.pipe_read 0) := by
    simp [fd_pipe, *]
  have d1 := fd_dup2_of_open _ a0 0 _ e1 n00
  have e2 : fd_dup2 (fd_pipe (fd_pipe (fd_pipe fds0 0 a0 b0) 1 a1 b1) 2 a2 b2) a0 0 b1
      = some (FileObj.pipe_write 1) := by
    rw [d1]
    simp [fd_pipe, *]
  have d2 := fd_dup2_of_open _ b1 1 _ e2 n31
  have e3 : fd_dup2 (fd_dup2 (fd_pipe (fd_pipe (fd_pipe fds0 0 a0 b0) 1 a1 b1) 2 a2 b2)
      a0 0) b1 1 b2 = some (FileObj.pipe_write 2) := by
    rw [d2, d1]
    simp [fd_pipe, *]
  have d3 := fd_dup2_of_open _ b2 2 _ e3 n52
  have hfds : (fixsubprocess_fork_execvp env program_path argv fds0 pipes0 out_streams0
      out_pid0).1.fds
      = fd_close (fd_close (fd_close (fd_close (fd_close (fd_close
          (fd_dup2 (fd_dup2 (fd_dup2
            (fd_pipe (fd_pipe (fd_pipe fds0 0 a0 b0) 1 a1 b1) 2 a2 b2) a0 0) b1 1) b2 2)
          a0) b0) a1) b1) a2) b2 := by
    simp [fixsubprocess_fork_execvp, pipe_loop_all_ok env _ a0 b0 a1 b1 a2 b2 h0 h1 h2,
      sys_fork, sys_dup2, close_pair, sys_close, range_three, hfork, hexec]
  refine ⟨?_, ?_, ?_, ?_, ?_⟩
  · simp [report, fixsubprocess_fork_execvp, pipe_loop_all_ok env _ a0 b0 a1 b1 a2 b2 h0 h1 h2,
      sys_fork, sys_dup2, close_pair, sys_close, range_three, hfork, hexec]
  · rw [hfds, d3, d2, d1]
    simp [fd_close, Ne.symm n00, Ne.symm n10, Ne.symm n20, Ne.symm n30, Ne.symm n40,
      Ne.symm n50]
  · rw [hfds, d3, d2, d1]
    simp [fd_close, Ne.symm n01, Ne.symm n11, Ne.symm n21, Ne.symm n31, Ne.symm n41,
      Ne.symm n51]
  · rw [hfds, d3, d2, d1]
    simp [fd_close, Ne.symm n02, Ne.symm n12, Ne.symm n22, Ne.symm n32, Ne.symm n42,
      Ne.symm n52]
  · intro fd hfd
    simp only [List.mem_cons, List.mem_singleton, List.not_mem_nil, or_false] at hfd
    rw [hfds]
    unfold fd_close
    rcases hfd with rfl | rfl | rfl | rfl | rfl | rfl <;> simp [*]

/-! ## The claims about the spawner -/

/-- C7: when the three pipe creations succeed (storing the descriptors `a_i`,
`b_i` for the read and the write end of pipe `i`) and `fork` returns a positive
pid, the function returns after closing exactly `a0`, `b1`, `b2` (the read end
of the in pipe and the write ends of the out and err pipes), each once, and
wrapping exactly `b0` for writing and `a1`, `a2` for reading, stored in this
order in `out_streams[0..2]`; `*out_pid` is the pid and `*out_error` is `NULL`.
The six descriptors being pairwise distinct, as descriptors that are open
together are, none is both closed and wrapped: the three wrapped ones are still
open on their pipe ends and the three closed ones are not open. -/
theorem spawn_parent_success (env : SpawnEnv) (program_path : String) (argv : List String)
    (fds0 : FdTable) (pipes0 : Nat → Int × Int) (out_streams0 : Nat → Option FILE)
    (out_pid0 : Int) (a0 b0 a1 b1 a2 b2 : Int)
    (h0 : env.pipe 0 = some (a0, b0)) (h1 : env.pipe 1 = some (a1, b1))
    (h2 : env.pipe 2 = some (a2, b2)) (hfork : 0 < env.fork) :
    report (fixsubprocess_fork_execvp env program_path argv fds0 pipes0 out_streams0 out_pid0)
      = { outcome := Outcome.returned
          calls := [SpawnCall.pipe 0, SpawnCall.pipe 1, SpawnCall.pipe 2, SpawnCall.fork,
            SpawnCall.close a0, SpawnCall.close b1, SpawnCall.close b2,
            SpawnCall.fdopen b0 "w", SpawnCall.fdopen a1 "r", SpawnCall.fdopen a2 "r"]
          out_error := none
          out_pid := env.fork
          stream0 := some { fd := b0, mode := "w" }
          stream1 := some { fd := a1, mode := "r" }
          stream2 := some { fd := a2, mode := "r" } } ∧
    closed_fds (fixsubprocess_fork_execvp env program_path argv fds0 pipes0 out_streams0
      out_pid0).1.calls = [a0, b1, b2] ∧
    wrapped_fds (fixsubprocess_fork_execvp env program_path argv fds0 pipes0 out_streams0
      out_pid0).1.calls = [b0, a1, a2] ∧
    ([a0, b0, a1, b1, a2, b2].Nodup →
      (∀ fd, fd ∈ [a0, b1, b2] → fd ∉ [b0, a1, a2]) ∧
      (fixsubprocess_fork_execvp env program_path argv fds0 pipes0 out_streams0
        out_pid0).1.fds b0 = some (FileObj.pipe_write 0) ∧
      (fixsubprocess_fork_execvp env program_path argv fds0 pipes0 out_streams0
        out_pid0).1.fds a1 = some (FileObj.pipe_read 1) ∧
      (fixsubprocess_fork_execvp env program_path argv fds0 pipes0 out_streams0
        out_pid0).1.fds a2 = some (FileObj.pipe_read 2) ∧
      (fixsubprocess_fork_execvp env program_path argv fds0 pipes0 out_streams0
        out_pid0).1.fds a0 = none ∧
      (fixsubprocess_fork_execvp env program_path argv fds0 pipes0 out_streams0
        out_pid0).1.fds b1 = none ∧
      (fixsubprocess_fork_execvp env program_path argv fds0 pipes0 out_streams0
        out_pid0).1.fds b2 = none) := by
  have hne : env.fork ≠ 0 := ne_of_gt hfork
  have hnn : ¬ env.fork < 0 := not_lt.mpr (le_of_lt hfork)
  refine ⟨?_, ?_, ?_, ?_⟩
  · simp [report, fixsubprocess_fork_execvp, pipe_loop_all_ok env _ a0 b0 a1 b1 a2 b2 h0 h1 h2,
      sys_fork, sys_close, sys_fdopen, hne, hnn]
  · simp [fixsubprocess_fork_execvp, pipe_loop_all_ok env _ a0 b0 a1 b1 a2 b2 h0 h1 h2,
      sys_fork, sys_close, sys_fdopen, hne, hnn, closed_fds]
  · simp [fixsubprocess_fork_execvp, pipe_loop_all_ok env _ a0 b0 a1 b1 a2 b2 h0 h1 h2,
      sys_fork, sys_close, sys_fdopen, hne, hnn, wrapped_fds]
  · intro hnd
    simp only [List.nodup_cons, List.mem_cons, List.mem_singleton, not_or, List.not_mem_nil,
      not_false_eq_true, List.nodup_nil, and_true] at hnd
    obtain ⟨⟨h01, h02, h03, h04, h05⟩, ⟨h12, h13, h14, h15⟩, ⟨h23, h24, h25⟩,
      ⟨h34, h35⟩, h45⟩ := hnd
    refine ⟨?_, ?_, ?_, ?_, ?_, ?_, ?_⟩
    · intro fd hfd
      simp only [List.mem_cons, List.mem_singleton, List.not_mem_nil, or_false] at hfd ⊢
      rcases hfd with rfl | rfl | rfl
      · exact fun h => by rcases h with h | h | h <;> simp_all
      · exact fun h => by rcases h with h | h | h <;> simp_all
      · exact fun h => by rcases h with h | h | h <;> simp_all
    all_goals
      simp [fixsubprocess_fork_execvp, pipe_loop_all_ok env _ a0 b0 a1 b1 a2 b2 h0 h1 h2,
        sys_fork, sys_close, sys_fdopen, hne, hnn, fd_close, fd_pipe, *]
      try omega

/-- Witness of C7: the pipes get the descriptors 3 to 8 and `fork` returns
1234. -/
theorem spawn_parent_success_witness :
    report (fixsubprocess_fork_execvp
        (spawn_env [some (3, 4), some (5, 6), some (7, 8)] 1234 true)
        "ls" ["ls", "-l"] std_fds stale_pipes stale_streams 99)
      = { outcome := Outcome.returned
          calls := [SpawnCall.pipe 0, SpawnCall.pipe 1, SpawnCall.pipe 2, SpawnCall.fork,
            SpawnCall.close 3, SpawnCall.close 6, SpawnCall.close 8,
            SpawnCall.fdopen 4 "w", SpawnCall.fdopen 5 "r", SpawnCall.fdopen 7 "r"]
          out_error := none
          out_pid := 1234
          stream0 := some { fd := 4, mode := "w" }
          stream1 := some { fd := 5, mode := "r" }
          stream2 := some { fd := 7, mode := "r" } } ∧
    (fixsubprocess_fork_execvp
        (spawn_env [some (3, 4), some (5, 6), some (7, 8)] 1234 true)
        "ls" ["ls", "-l"] std_fds stale_pipes stale_streams 99).1.fds 4
      = some (FileObj.pipe_write 0) :=
  have h := spawn_parent_success
    (spawn_env [some (3, 4), some (5, 6), some (7, 8)] 1234 true)
    "ls" ["ls", "-l"] std_fds stale_pipes stale_streams 99 3 4 5 6 7 8 rfl rfl rfl
    (by decide)
  ⟨h.1, (h.2.2.2 (by decide)).2.1⟩

/-- C8: for `k` in `{0, 1, 2}`, when the first `k` pipe creations succeed
(storing the descriptors `p j`) and the next one fails, the function returns
after the `k + 1` calls of `pipe`, the `2k` calls of `close` on the two ends of
the `k` pipes created, and the allocation of the 23 bytes of the message
"Failed to create pipe." that `*out_error` then holds.  `fork` is not called,
and `*out_pid` and `out_streams` are as they were at the call. -/
theorem spawn_pipe_failure (env : SpawnEnv) (program_path : String) (argv : List String)
    (fds0 : FdTable) (pipes0 : Nat → Int × Int) (out_streams0 : Nat → Option FILE)
    (out_pid0 : Int) (k : Nat) (p : Nat → Int × Int) (hk : k < 3)
    (hok : ∀ j, j < k → env.pipe j = some (p j)) (hfail : env.pipe k = none) :
    report (fixsubprocess_fork_execvp env program_path argv fds0 pipes0 out_streams0 out_pid0)
      = { outcome := Outcome.returned
          calls := (List.range (k + 1)).map SpawnCall.pipe ++ close_calls p k ++
            [SpawnCall.malloc 23]
          out_error := some "Failed to create pipe."
          out_pid := out_pid0
          stream0 := out_streams0 0
          stream1 := out_streams0 1
          stream2 := out_streams0 2 } ∧
    closed_fds (fixsubprocess_fork_execvp env program_path argv fds0 pipes0 out_streams0
      out_pid0).1.calls = pipe_fds p k ∧
    (pipe_fds p k).length = 2 * k ∧
    SpawnCall.fork ∉ (fixsubprocess_fork_execvp env program_path argv fds0 pipes0
      out_streams0 out_pid0).1.calls ∧
    (fixsubprocess_fork_execvp env program_path argv fds0 pipes0 out_streams0
      out_pid0).1.out_streams = out_streams0 := by
  interval_cases k
  · simp [report, fixsubprocess_fork_execvp, pipe_loop, sys_pipe, hfail, set_error,
      close_calls, closed_fds, pipe_fds, List.range_succ, length_pipe_message]
  · have h0 := hok 0 (by norm_num)
    cases hp0 : p 0 with
    | mk a0 b0 =>
      rw [hp0] at h0
      simp [report, fixsubprocess_fork_execvp, pipe_loop, sys_pipe, hfail, h0, set_error,
        close_calls, closed_fds, pipe_fds, List.range_succ, close_pair, sys_close, hp0,
        length_pipe_message]
  · have h0 := hok 0 (by norm_num)
    have h1 := hok 1 (by norm_num)
    cases hp0 : p 0 with
    | mk a0 b0 =>
      cases hp1 : p 1 with
      | mk a1 b1 =>
        rw [hp0] at h0
        rw [hp1] at h1
        simp [report, fixsubprocess_fork_execvp, pipe_loop, sys_pipe, hfail, h0, h1,
          set_error, close_calls, closed_fds, pipe_fds, List.range_succ, close_pair,
          sys_close, hp0, hp1, length_pipe_message]

/-- Witness of C8: two pipes are created, on the descriptors 3 to 6, and the
third creation fails. -/
theorem spawn_pipe_failure_witness :
    report (fixsubprocess_fork_execvp (spawn_env [some (3, 4), some (5, 6), none] 1234 true)
        "ls" ["ls", "-l"] std_fds stale_pipes stale_streams 99)
      = { outcome := Outcome.returned
          calls := [SpawnCall.pipe 0, SpawnCall.pipe 1, SpawnCall.pipe 2,
            SpawnCall.close 3, SpawnCall.close 4, SpawnCall.close 5, SpawnCall.close 6,
            SpawnCall.malloc 23]
          out_error := some "Failed to create pipe."
          out_pid := 99
          stream0 := none
          stream1 := none
          stream2 := none } :=
  (spawn_pipe_failure (spawn_env [some (3, 4), some (5, 6), none] 1234 true)
    "ls" ["ls", "-l"] std_fds stale_pipes stale_streams 99 2
    (fun j => if j = 0 then (3, 4) else (5, 6)) (by decide)
    (by intro j hj; interval_cases j <;> rfl) rfl).1

/-- C10: when the three pipe creations succeed and `fork` returns a negative
value, the function returns after the allocation of the 32 bytes of the message
"Failed to create child process." that `*out_error` then holds.  There is no
call of `close`: the descriptor table is the one left by the three pipe
creations, in which the six descriptors are open.  `*out_pid` and `out_streams`
are as they were at the call. -/
theorem spawn_fork_failure (env : SpawnEnv) (program_path : String) (argv : List String)
    (fds0 : FdTable) (pipes0 : Nat → Int × Int) (out_streams0 : Nat → Option FILE)
    (out_pid0 : Int) (a0 b0 a1 b1 a2 b2 : Int)
    (h0 : env.pipe 0 = some (a0, b0)) (h1 : env.pipe 1 = some (a1, b1))
    (h2 : env.pipe 2 = some (a2, b2)) (hfork : env.fork < 0) :
    report (fixsubprocess_fork_execvp env program_path argv fds0 pipes0 out_streams0 out_pid0)
      = { outcome := Outcome.returned
          calls := [SpawnCall.pipe 0, SpawnCall.pipe 1, SpawnCall.pipe 2, SpawnCall.fork,
            SpawnCall.malloc 32]
          out_error := some "Failed to create child process."
          out_pid := out_pid0
          stream0 := out_streams0 0
          stream1 := out_streams0 1
          stream2 := out_streams0 2 } ∧
    closed_fds (fixsubprocess_fork_execvp env program_path argv fds0 pipes0 out_streams0
      out_pid0).1.calls = [] ∧
    (fixsubprocess_fork_execvp env program_path argv fds0 pipes0 out_streams0
      out_pid0).1.out_streams = out_streams0 ∧
    (fixsubprocess_fork_execvp env program_path argv fds0 pipes0 out_streams0
      out_pid0).1.fds = fd_pipe (fd_pipe (fd_pipe fds0 0 a0 b0) 1 a1 b1) 2 a2 b2 ∧
    (∀ fd, fd ∈ [a0, b0, a1, b1, a2, b2] →
      ((fixsubprocess_fork_execvp env program_path argv fds0 pipes0 out_streams0
        out_pid0).1.fds fd).isSome = true) := by
  have hne : env.fork ≠ 0 := ne_of_lt hfork
  have hfds : (fixsubprocess_fork_execvp env program_path argv fds0 pipes0 out_streams0
      out_pid0).1.fds = fd_pipe (fd_pipe (fd_pipe fds0 0 a0 b0) 1 a1 b1) 2 a2 b2 := by
    simp [fixsubprocess_fork_execvp, pipe_loop_all_ok env _ a0 b0 a1 b1 a2 b2 h0 h1 h2,
      sys_fork, set_error, hne, hfork]
  refine ⟨?_, ?_, ?_, hfds, ?_⟩
  · simp [report, fixsubprocess_fork_execvp, pipe_loop_all_ok env _ a0 b0 a1 b1 a2 b2 h0 h1 h2,
      sys_fork, set_error, hne, hfork, length_fork_message]
  · simp [fixsubprocess_fork_execvp, pipe_loop_all_ok env _ a0 b0 a1 b1 a2 b2 h0 h1 h2,
      sys_fork, set_error, hne, hfork, closed_fds]
  · simp [fixsubprocess_fork_execvp, pipe_loop_all_ok env _ a0 b0 a1 b1 a2 b2 h0 h1 h2,
      sys_fork, set_error, hne, hfork]
  · intro fd hfd
    rw [hfds]
    simp only [List.mem_cons, List.mem_singleton, List.not_mem_nil, or_false] at hfd
    unfold fd_pipe
    rcases hfd with rfl | rfl | rfl | rfl | rfl | rfl <;>
      (repeat' split) <;> first | rfl | simp_all

/-- Witness of C10: the pipes get the descriptors 3 to 8 and `fork` returns
-1. -/
theorem spawn_fork_failure_witness :
    report (fixsubprocess_fork_execvp
        (spawn_env [some (3, 4), some (5, 6), some (7, 8)] (-1) true)
        "ls" ["ls", "-l"] std_fds stale_pipes stale_streams 99)
      = { outcome := Outcome.returned
          calls := [SpawnCall.pipe 0, SpawnCall.pipe 1, SpawnCall.pipe 2, SpawnCall.fork,
            SpawnCall.malloc 32]
          out_error := some "Failed to create child process."
          out_pid := 99
          stream0 := none
          stream1 := none
          stream2 := none } :=
  (spawn_fork_failure (spawn_env [some (3, 4), some (5, 6), some (7, 8)] (-1) true)
    "ls" ["ls", "-l"] std_fds stale_pipes stale_streams 99 3 4 5 6 7 8 rfl rfl rfl
    (by decide)).1

/-- C9, at the failing input: the calling process has descriptor 0 closed and 1,
2 open, so that the three pipes get the pairwise distinct descriptors (0, 3),
(4, 5) and (6, 7), and `fork` returns 0.  `dup2(0, 0)` changes nothing and
`close(pipes[0][0])` is `close(0)`: at the call of `execvp` descriptor 0 is not
open, instead of referring to the read end of the in pipe (descriptors 1 and 2
do refer to the write ends of the out and err pipes). -/
theorem spawn_child_closes_redirected_stdin :
    [(0 : Int), 3, 4, 5, 6, 7].Nodup ∧
    report (fixsubprocess_fork_execvp
        (spawn_env [some (0, 3), some (4, 5), some (6, 7)] 0 true)
        "ls" ["ls", "-l"] no_stdin_fds stale_pipes stale_streams 99)
      = { outcome := Outcome.image_replaced
          calls := [SpawnCall.pipe 0, SpawnCall.pipe 1, SpawnCall.pipe 2, SpawnCall.fork,
            SpawnCall.dup2 0 0, SpawnCall.dup2 5 1, SpawnCall.dup2 7 2,
            SpawnCall.close 0, SpawnCall.close 3, SpawnCall.close 4,
            SpawnCall.close 5, SpawnCall.close 6, SpawnCall.close 7,
            SpawnCall.execvp "ls" ["ls", "-l"]]
          out_error := none
          out_pid := 99
          stream0 := none
          stream1 := none
          stream2 := none } ∧
    (fixsubprocess_fork_execvp
        (spawn_env [some (0, 3), some (4, 5), some (6, 7)] 0 true)
        "ls" ["ls", "-l"] no_stdin_fds stale_pipes stale_streams 99).1.fds 0 = none ∧
    (fixsubprocess_fork_execvp
        (spawn_env [some (0, 3), some (4, 5), some (6, 7)] 0 true)
        "ls" ["ls", "-l"] no_stdin_fds stale_pipes stale_streams 99).1.fds 1
      = some (FileObj.pipe_write 1) ∧
    (fixsubprocess_fork_execvp
        (spawn_env [some (0, 3), some (4, 5), some (6, 7)] 0 true)
        "ls" ["ls", "-l"] no_stdin_fds stale_pipes stale_streams 99).1.fds 2
      = some (FileObj.pipe_write 2) := by
  refine ⟨by decide, by decide, by decide, by decide, by decide⟩

end FixSubprocess
